import Mathlib

/-!
Verification development for the `motan` log-analysis tool
(`scripts/motan/readlog.py` and `scripts/motan/analyzers.py`).

The Python code is shallowly embedded: floats become rationals (`ℚ`),
the stateful handler objects become explicit state records, and the
message stream delivered by the dispatcher becomes an explicit list of
data blocks.  Code paths where Python would raise an exception are
modelled with `Option`/`Except`.
-/

set_option autoImplicit false

namespace Motan

/-- Projection of a 3-tuple of rationals by axis index, modelling Python
tuple indexing `t[axis]` for `axis` in `0..2`. -/
def ax3 (v : ℚ × ℚ × ℚ) : Fin 3 → ℚ
  | 0 => v.1
  | 1 => v.2.1
  | 2 => v.2.2

/-! ## HandleTrapQ (`readlog.py` lines 20-104)

A trapq move record `(print_time, move_t, start_v, accel, start_pos,
axes_r)`. -/

structure Move where
  print_time : ℚ
  move_t : ℚ
  start_v : ℚ
  accel : ℚ
  start_pos : ℚ × ℚ × ℚ
  axes_r : ℚ × ℚ × ℚ
  deriving DecidableEq, Repr

namespace HandleTrapQ

/-- The sentinel move the handler starts with:
`self.cur_data = [(0., 0., 0., 0., (0., 0., 0.), (0., 0., 0.))]`. -/
def sentinel : Move := ⟨0, 0, 0, 0, (0, 0, 0), (0, 0, 0)⟩

/-- Handler state: `cur` is `cur_data[data_pos]`, `rest` is the remainder
of `cur_data` past `data_pos`, and `stream` is the sequence of `data`
blocks that successive `jdispatch.pull_msg` calls will deliver (an empty
`stream` means `pull_msg` returns `None`). -/
structure State where
  cur : Move
  rest : List Move
  stream : List (List Move)
  deriving DecidableEq, Repr

/-- Fresh handler state (`__init__`) fed by the given message stream. -/
def init (stream : List (List Move)) : State :=
  ⟨sentinel, [], stream⟩

/-- Inner loop of `HandleTrapQ._find_move` (lines 60-68): scan the
current `cur_data` buffer from `data_pos` on; `.inl` is an early return
with the `(move, in_range)` pair, `.inr` carries the last move examined
when the buffer is exhausted. -/
def scan_moves (req_time : ℚ) : Move → List Move → (Move × Bool) ⊕ Move
  | m, rest =>
    if req_time ≤ m.print_time + m.move_t then
      .inl (m, decide (m.print_time ≤ req_time))
    else
      match rest with
      | [] => .inr m
      | m2 :: rest2 => scan_moves req_time m2 rest2

/-- Outer loop of `HandleTrapQ._find_move` (lines 69-73): pull further
data blocks from the dispatcher; at end of stream return the last
examined move with `in_range = False`.  (A `data` block delivered by
the dispatcher is never empty in practice — Python would fault on
`cur_data[0]` — so the model skips empty blocks.) -/
def find_move_stream (req_time : ℚ) : Move → List (List Move) → Move × Bool
  | last, [] => (last, false)
  | last, blk :: stream2 =>
    match blk with
    | [] => find_move_stream req_time last stream2
    | m2 :: rest2 =>
      match scan_moves req_time m2 rest2 with
      | .inl res => res
      | .inr last2 => find_move_stream req_time last2 stream2

/-- `HandleTrapQ._find_move` (lines 58-73). -/
def find_move (req_time : ℚ) (m : Move) (rest : List Move)
    (stream : List (List Move)) : Move × Bool :=
  match scan_moves req_time m rest with
  | .inl res => res
  | .inr last => find_move_stream req_time last stream

/-- `HandleTrapQ.pull_axis_position` (lines 74-79). -/
def pull_axis_position (s : State) (req_time : ℚ) (axis : Fin 3) : ℚ :=
  let m := (find_move req_time s.cur s.rest s.stream).1
  let mtime := max 0 (min m.move_t (req_time - m.print_time))
  let dist := (m.start_v + 1/2 * m.accel * mtime) * mtime
  ax3 m.start_pos axis + ax3 m.axes_r axis * dist

/-- `HandleTrapQ.pull_axis_velocity` (lines 80-85). -/
def pull_axis_velocity (s : State) (req_time : ℚ) (axis : Fin 3) : ℚ :=
  let mi := find_move req_time s.cur s.rest s.stream
  if !mi.2 then 0
  else (mi.1.start_v + mi.1.accel * (req_time - mi.1.print_time)) * ax3 mi.1.axes_r axis

/-- `HandleTrapQ.pull_axis_accel` (lines 86-91). -/
def pull_axis_accel (s : State) (req_time : ℚ) (axis : Fin 3) : ℚ :=
  let mi := find_move req_time s.cur s.rest s.stream
  if !mi.2 then 0
  else mi.1.accel * ax3 mi.1.axes_r axis

/-- `HandleTrapQ.pull_velocity` (lines 92-97). -/
def pull_velocity (s : State) (req_time : ℚ) : ℚ :=
  let mi := find_move req_time s.cur s.rest s.stream
  if !mi.2 then 0
  else mi.1.start_v + mi.1.accel * (req_time - mi.1.print_time)

/-- `HandleTrapQ.pull_accel` (lines 98-103). -/
def pull_accel (s : State) (req_time : ℚ) : ℚ :=
  let mi := find_move req_time s.cur s.rest s.stream
  if !mi.2 then 0
  else mi.1.accel

/-- If the buffer scan returns early, the `in_range` flag is `true`
exactly when `req_time` lies in `[print_time, print_time + move_t]` of
the returned move. -/
theorem scan_moves_inl (req_time : ℚ) (m : Move) (rest : List Move)
    (res : Move × Bool) (h : scan_moves req_time m rest = .inl res) :
    res.2 = true ↔
      res.1.print_time ≤ req_time ∧
        req_time ≤ res.1.print_time + res.1.move_t := by
  induction rest generalizing m with
  | nil =>
    rw [scan_moves] at h
    by_cases hle : req_time ≤ m.print_time + m.move_t
    · rw [if_pos hle] at h
      cases h
      simp [hle]
    · rw [if_neg hle] at h
      cases h
  | cons m2 rest2 ih =>
    rw [scan_moves] at h
    by_cases hle : req_time ≤ m.print_time + m.move_t
    · rw [if_pos hle] at h
      cases h
      simp [hle]
    · rw [if_neg hle] at h
      exact ih m2 h

/-- If the buffer scan exhausts the buffer, `req_time` is strictly past
the end of the last examined move. -/
theorem scan_moves_inr (req_time : ℚ) (m : Move) (rest : List Move)
    (last : Move) (h : scan_moves req_time m rest = .inr last) :
    last.print_time + last.move_t < req_time := by
  induction rest generalizing m with
  | nil =>
    rw [scan_moves] at h
    by_cases hle : req_time ≤ m.print_time + m.move_t
    · rw [if_pos hle] at h; cases h
    · rw [if_neg hle] at h
      cases h
      exact lt_of_not_ge hle
  | cons m2 rest2 ih =>
    rw [scan_moves] at h
    by_cases hle : req_time ≤ m.print_time + m.move_t
    · rw [if_pos hle] at h; cases h
    · rw [if_neg hle] at h
      exact ih m2 h

/-- The stream loop preserves the `in_range` characterization, provided
the move it falls back to at end of stream already fails the bracket
test. -/
theorem find_move_stream_in_range (req_time : ℚ) (last : Move)
    (stream : List (List Move))
    (hlast : last.print_time + last.move_t < req_time) :
    (find_move_stream req_time last stream).2 = true ↔
      (find_move_stream req_time last stream).1.print_time ≤ req_time ∧
        req_time ≤ (find_move_stream req_time last stream).1.print_time +
          (find_move_stream req_time last stream).1.move_t := by
  induction stream generalizing last with
  | nil =>
    rw [find_move_stream]
    simp only [Bool.false_eq_true, false_iff]
    rintro ⟨h1, h2⟩
    exact absurd h2 (not_le.mpr hlast)
  | cons blk stream2 ih =>
    match blk with
    | [] =>
      simp only [find_move_stream]
      exact ih last hlast
    | m2 :: rest2 =>
      simp only [find_move_stream]
      cases hscan : scan_moves req_time m2 rest2 with
      | inl res => exact scan_moves_inl req_time m2 rest2 res hscan
      | inr last2 => exact ih last2 (scan_moves_inr req_time m2 rest2 last2 hscan)

/-- The `in_range` flag returned by `_find_move` is `true` exactly when
`req_time` lies in the closed interval
`[print_time, print_time + move_t]` of the returned move. -/
theorem find_move_in_range (req_time : ℚ) (m : Move) (rest : List Move)
    (stream : List (List Move)) :
    (find_move req_time m rest stream).2 = true ↔
      (find_move req_time m rest stream).1.print_time ≤ req_time ∧
      req_time ≤ (find_move req_time m rest stream).1.print_time +
        (find_move req_time m rest stream).1.move_t := by
  rw [find_move]
  cases hscan : scan_moves req_time m rest with
  | inl res => exact scan_moves_inl req_time m rest res hscan
  | inr last =>
    exact find_move_stream_in_range req_time last stream
      (scan_moves_inr req_time m rest last hscan)

end HandleTrapQ

/-! ## HandleStepQ (`readlog.py` lines 107-185)

A decoded step event is a `(time, half_position, position)` triple. -/

namespace HandleStepQ

/-- `smooth_time = 0.010` (line 119). -/
def smooth_time : ℚ := 1 / 100

/-- The smoothing computation of `pull_position` (lines 131-146), applied
once the bracketing step events `last` and `next` around `req_time` are
known. -/
def step_smooth (req_time : ℚ) (last next : ℚ × ℚ × ℚ) : ℚ :=
  let rtdiff := req_time - last.1
  let stime := next.1 - last.1
  if stime ≤ smooth_time then
    last.2.1 + rtdiff * (next.2.1 - last.2.1) / stime
  else
    let stime2 := 1/2 * smooth_time
    if rtdiff < stime2 then
      last.2.1 + rtdiff * (last.2.2 - last.2.1) / stime2
    else
      let rtdiff2 := next.1 - req_time
      if rtdiff2 < stime2 then
        next.2.1 + rtdiff2 * (last.2.2 - next.2.1) / stime2
      else last.2.2

/-- `HandleStepQ.pull_position` (lines 118-146) together with the
buffer-management part of `_pull_block` (lines 147-160).  The first list
argument is `step_data[data_pos:]`; a singleton list is the state right
after `del step_data[:-1]` inside `_pull_block`.  The stream delivers
blocks as `(last_step_time, decoded events)` pairs — the decoding of raw
intervals/counts into `(time, half_position, position)` triples (lines
161-184) happens upstream of this function.  At end of stream the
handler appends the pad event `(req_time + 0.1, last_pos, last_pos)`
and smooths against it. -/
def pull_position (req_time : ℚ) :
    List (ℚ × ℚ × ℚ) → List (ℚ × List (ℚ × ℚ × ℚ)) → ℚ
  | [], _ => 0
  | [ne], stream =>
    match stream with
    | [] => step_smooth req_time ne (req_time + 1/10, ne.2.2, ne.2.2)
    | (last_time, evs) :: stream2 =>
      if req_time ≤ last_time then pull_position req_time (ne :: evs) stream2
      else pull_position req_time [ne] stream2
  | la :: ne :: rest, stream =>
    if ne.1 ≤ req_time then
      match rest with
      | r1 :: rest2 => pull_position req_time (ne :: r1 :: rest2) stream
      | [] => pull_position req_time [ne] stream
    else step_smooth req_time la ne
  termination_by sd stream => (stream.length, sd.length)

/-- Fresh handler buffer: `self.step_data = [(0., 0., 0.), (0., 0., 0.)]`
(line 113). -/
def init_data : List (ℚ × ℚ × ℚ) := [(0, 0, 0), (0, 0, 0)]

/-- The step events of the C3 scenario: steps of distance `0.01` every
`0.001` time units starting from position `0`; `scenario_event (i+1)` is
the `(i+1)`-st step with half-step position `i·0.01 + 0.005` and settled
position `(i+1)·0.01`, and `scenario_event 0` is the pre-existing rest
state. -/
def scenario_event : ℕ → ℚ × ℚ × ℚ
  | 0 => (0, 0, 0)
  | i + 1 => ((i + 1 : ℚ) / 1000, (i : ℚ) / 100 + 1/200, (i + 1 : ℚ) / 100)

/-- Querying the C3 scenario from a fresh handler: the stream holds one
block whose `last_step_time` is the time of step `n` and whose decoded
events are steps `1` to `n`. -/
def scenario_pull (n : ℕ) (req_time : ℚ) : ℚ :=
  pull_position req_time init_data
    [((n : ℚ) / 1000, (List.range n).map (fun i => scenario_event (i + 1)))]

/-- The scenario buffer viewed from step `j` on (`step_data[data_pos:]`
once the handler cursor has advanced to step `j`). -/
def scenario_tail (j n : ℕ) : List (ℚ × ℚ × ℚ) :=
  (List.range' j (n + 1 - j)).map scenario_event

theorem scenario_tail_cons (j n : ℕ) (h : j ≤ n) :
    scenario_tail j n = scenario_event j :: scenario_tail (j + 1) n := by
  have h1 : n + 1 - j = (n - j) + 1 := by omega
  have h2 : n + 1 - (j + 1) = n - j := by omega
  rw [scenario_tail, scenario_tail, h1, h2, List.range'_succ, List.map_cons]

theorem scenario_tail_zero (n : ℕ) :
    (0, 0, 0) :: (List.range n).map (fun i => scenario_event (i + 1)) =
      scenario_tail 0 n := by
  rw [scenario_tail_cons 0 n (Nat.zero_le n)]
  have h1 : n + 1 - 1 = n := by omega
  rw [scenario_tail, h1, List.range'_eq_map_range, List.map_map]
  refine congrArg₂ (· :: ·) rfl ?_
  refine List.map_congr_left ?_
  intro i _
  show scenario_event (i + 1) = scenario_event (0 + 1 + i)
  exact congrArg scenario_event (by omega)

/-- Advancing through the scenario buffer: from step `j < k` and query
time at the midpoint of steps `k` and `k+1`, the handler steps its
cursor forward and eventually smooths between steps `k` and `k+1`,
returning `k/100`. -/
theorem scenario_tail_pull (n k : ℕ) (hk : 1 ≤ k) (hkn : k + 1 ≤ n) :
    ∀ d j, j ≤ k → k - j = d →
      pull_position ((k : ℚ) / 1000 + 1 / 2000) (scenario_tail j n) [] =
        (k : ℚ) / 100 := by
  intro d
  induction d with
  | zero =>
    intro j hj hd
    have hjk : j = k := by omega
    subst hjk
    obtain ⟨k0, rfl⟩ : ∃ k0, j = k0 + 1 := ⟨j - 1, by omega⟩
    rw [scenario_tail_cons _ n (by omega), scenario_tail_cons _ n (by omega)]
    have hc : ¬ ((scenario_event (k0 + 1 + 1)).1 ≤
        ((k0 + 1 : ℕ) : ℚ) / 1000 + 1 / 2000) := by
      simp only [scenario_event]
      push_cast
      intro h
      linarith
    rw [pull_position.eq_def]
    simp only
    rw [if_neg hc]
    simp only [step_smooth, scenario_event, smooth_time]
    have hst : ((k0 + 1 : ℚ) + 1) / 1000 - ((k0 : ℚ) + 1) / 1000 = 1 / 1000 := by
      ring
    push_cast
    rw [hst]
    rw [if_pos (by norm_num)]
    field_simp
    ring
  | succ d ih =>
    intro j hj hd
    have hjlt : j < k := by omega
    rw [scenario_tail_cons j n (by omega), scenario_tail_cons (j + 1) n (by omega),
      scenario_tail_cons (j + 2) n (by omega)]
    have hc : (scenario_event (j + 1)).1 ≤ ((k : ℕ) : ℚ) / 1000 + 1 / 2000 := by
      simp only [scenario_event]
      have : ((j : ℚ)) + 1 ≤ (k : ℚ) := by exact_mod_cast hjlt
      linarith
    rw [pull_position.eq_def]
    simp only
    rw [if_pos hc]
    rw [← scenario_tail_cons (j + 2) n (by omega), ← scenario_tail_cons (j + 1) n (by omega)]
    exact ih (j + 1) (by omega) (by omega)

end HandleStepQ

/-! ## HandleADXL345 (`readlog.py` lines 188-226)

Accelerometer samples are `(time, x, y, z)` tuples. -/

namespace HandleADXL345

/-- Handler state (`__init__`, lines 191-197): bracketing sample pair,
the remainder of the current data block past `data_pos`, and the
blocks still to be delivered by the dispatcher. -/
structure State where
  last_accel_time : ℚ
  next_accel_time : ℚ
  last_accel : ℚ × ℚ × ℚ
  next_accel : ℚ × ℚ × ℚ
  cur_data : List (ℚ × ℚ × ℚ × ℚ)
  stream : List (List (ℚ × ℚ × ℚ × ℚ))
  deriving DecidableEq, Repr

/-- Fresh handler state fed by the given message stream. -/
def init (stream : List (List (ℚ × ℚ × ℚ × ℚ))) : State :=
  ⟨0, 0, (0, 0, 0), (0, 0, 0), [], stream⟩

/-- `HandleADXL345.pull_accel` (lines 206-225).  The interpolation
divides by `next_accel_time - last_accel_time` with no zero guard;
Python raises `ZeroDivisionError` there, modelled as `none`.  At end of
stream the handler returns `0`. -/
def pull_accel (axis : Fin 3) (req_time : ℚ) : State → Option (ℚ × State)
  | ⟨last_time, next_time, last_a, next_a, cur_data, stream⟩ =>
    if req_time ≤ next_time then
      let adiff := ax3 next_a axis - ax3 last_a axis
      let tdiff := next_time - last_time
      let rtdiff := req_time - last_time
      if tdiff = 0 then none
      else some (ax3 last_a axis + rtdiff * adiff / tdiff,
        ⟨last_time, next_time, last_a, next_a, cur_data, stream⟩)
    else
      match cur_data with
      | [] =>
        match stream with
        | [] => some (0, ⟨last_time, next_time, last_a, next_a, [], []⟩)
        | blk :: stream2 =>
          pull_accel axis req_time
            ⟨last_time, next_time, last_a, next_a, blk, stream2⟩
      | (t, x, y, z) :: rest =>
        pull_accel axis req_time
          ⟨next_time, t, next_a, (x, y, z), rest, stream⟩
  termination_by s => (s.stream.length, s.cur_data.length)

theorem pull_accel_interp (axis : Fin 3) (rt lt nt : ℚ) (la na : ℚ × ℚ × ℚ)
    (cur : List (ℚ × ℚ × ℚ × ℚ)) (str : List (List (ℚ × ℚ × ℚ × ℚ)))
    (h : rt ≤ nt) (h2 : nt - lt ≠ 0) :
    pull_accel axis rt ⟨lt, nt, la, na, cur, str⟩ =
      some (ax3 la axis + (rt - lt) * (ax3 na axis - ax3 la axis) / (nt - lt),
        ⟨lt, nt, la, na, cur, str⟩) := by
  rw [pull_accel.eq_def]
  simp only
  rw [if_pos h, if_neg h2]

theorem pull_accel_eof (axis : Fin 3) (rt lt nt : ℚ) (la na : ℚ × ℚ × ℚ)
    (h : ¬ rt ≤ nt) :
    pull_accel axis rt ⟨lt, nt, la, na, [], []⟩ =
      some (0, ⟨lt, nt, la, na, [], []⟩) := by
  rw [pull_accel.eq_def]
  simp only
  rw [if_neg h]

theorem pull_accel_load (axis : Fin 3) (rt lt nt : ℚ) (la na : ℚ × ℚ × ℚ)
    (blk : List (ℚ × ℚ × ℚ × ℚ)) (str2 : List (List (ℚ × ℚ × ℚ × ℚ)))
    (h : ¬ rt ≤ nt) :
    pull_accel axis rt ⟨lt, nt, la, na, [], blk :: str2⟩ =
      pull_accel axis rt ⟨lt, nt, la, na, blk, str2⟩ := by
  rw [pull_accel.eq_def]
  simp only
  rw [if_neg h]

theorem pull_accel_consume (axis : Fin 3) (rt lt nt : ℚ) (p : ℚ × ℚ × ℚ × ℚ)
    (la na : ℚ × ℚ × ℚ) (rest : List (ℚ × ℚ × ℚ × ℚ))
    (str : List (List (ℚ × ℚ × ℚ × ℚ))) (h : ¬ rt ≤ nt) :
    pull_accel axis rt ⟨lt, nt, la, na, p :: rest, str⟩ =
      pull_accel axis rt ⟨nt, p.1, na, (p.2.1, p.2.2.1, p.2.2.2), rest, str⟩ := by
  obtain ⟨t, x, y, z⟩ := p
  rw [pull_accel.eq_def]
  simp only
  rw [if_neg h]

end HandleADXL345

/-! ## HandleAngle (`readlog.py` lines 229-263)

Angle samples are `(time, raw angle)` pairs. -/

namespace HandleAngle

/-- `self.angle_dist = 40. / 65536` (line 239). -/
def angle_dist : ℚ := 40 / 65536

/-- Handler state (`__init__`, lines 232-238). -/
structure State where
  last_angle_time : ℚ
  next_angle_time : ℚ
  last_angle : ℚ
  next_angle : ℚ
  cur_data : List (ℚ × ℚ)
  stream : List (List (ℚ × ℚ))
  deriving DecidableEq, Repr

/-- Fresh handler state fed by the given message stream. -/
def init (stream : List (List (ℚ × ℚ))) : State :=
  ⟨0, 0, 0, 0, [], stream⟩

/-- `HandleAngle.pull_position` (lines 243-262).  The interpolation
divides by `next_angle_time - last_angle_time` with no zero guard;
Python raises `ZeroDivisionError` there, modelled as `none`.  At end of
stream the handler returns the last raw angle scaled by `angle_dist`. -/
def pull_position (req_time : ℚ) : State → Option (ℚ × State)
  | ⟨last_time, next_time, last_a, next_a, cur_data, stream⟩ =>
    if req_time ≤ next_time then
      let pdiff := next_a - last_a
      let tdiff := next_time - last_time
      if tdiff = 0 then none
      else
        let po := (req_time - last_time) * pdiff / tdiff
        some ((last_a + po) * angle_dist,
          ⟨last_time, next_time, last_a, next_a, cur_data, stream⟩)
    else
      match cur_data with
      | [] =>
        match stream with
        | [] => some (next_a * angle_dist, ⟨last_time, next_time, last_a, next_a, [], []⟩)
        | blk :: stream2 =>
          pull_position req_time ⟨last_time, next_time, last_a, next_a, blk, stream2⟩
      | (t, a) :: rest =>
        pull_position req_time ⟨next_time, t, next_a, a, rest, stream⟩
  termination_by s => (s.stream.length, s.cur_data.length)

end HandleAngle

/-! ## JsonLogReader (`readlog.py` lines 271-296) -/

namespace JsonLogReader

/-- The parse outcome of one 0x03-delimited frame: `good v` is a frame
whose payload parses as JSON (the payload abstracted to a tag `v`),
`bad` is a frame on which `json.loads` raises. -/
inductive Frame
  | good (v : ℕ)
  | bad
  deriving DecidableEq, Repr

/-- `JsonLogReader.pull_msg` (lines 279-296), modelled at frame
granularity: the byte-level buffering and 0x03 splitting (lines
290-296) are abstracted into the frame sequence, and end of file
yields `none`.  On a parse failure the `except` handler executes
`logging.exception("Unable to parse line")` (line 287), but the module
`logging` is never imported in `readlog.py` (line 6 only does
`import json, zlib`), so the handler itself raises `NameError` and the
call aborts — modelled as `Except.error`. -/
def pull_msg : List Frame → Except Unit (Option ℕ × List Frame)
  | [] => .ok (none, [])
  | .good v :: rest => .ok (some v, rest)
  | .bad :: _ => .error ()

/-- Modelled from the spec: the behavior the `try/except/continue`
structure intends — "A malformed frame (parse failure) is skipped and
surfaced as a recoverable warning, not fatal" — skip bad frames and
keep decoding. -/
def pull_msg_spec : List Frame → Option ℕ × List Frame
  | [] => (none, [])
  | .good v :: rest => (some v, rest)
  | .bad :: rest => pull_msg_spec rest

end JsonLogReader

/-! ## JsonDispatcher (`readlog.py` lines 299-330) -/

namespace JsonDispatcher

/-- One decoded frame as the dispatcher sees it: the optional `q`
(queue id) field, the `params` payload (abstracted to a tag),
and the nested `toolhead.estimated_print_time` field when present. -/
structure JMsg where
  q : Option String
  params : ℕ
  ept : Option ℚ
  deriving DecidableEq, Repr

/-- Dispatcher state (`__init__`, lines 300-304): the per-subscription
queues in insertion order, the status-time watermark `last_read_time`,
the remaining frames of the log, and the end-of-file flag. -/
structure State where
  queues : List (String × List ℕ)
  last_read_time : ℚ
  stream : List JMsg
  is_eof : Bool
  deriving DecidableEq, Repr

/-- `self.queues.get(qid)` / `self.queues[msg_id]` lookup. -/
def lookup_queue (qs : List (String × List ℕ)) (qid : String) :
    Option (List ℕ) :=
  match qs with
  | [] => none
  | (k, v) :: rest => if k = qid then some v else lookup_queue rest qid

/-- Replace the contents of queue `qid` (a Python dict-value mutation:
`q.pop(0)` / `mq.append(params)`). -/
def set_queue (qs : List (String × List ℕ)) (qid : String) (v : List ℕ) :
    List (String × List ℕ) :=
  match qs with
  | [] => []
  | (k, w) :: rest =>
    if k = qid then (k, v) :: rest else (k, w) :: set_queue rest qid v

/-- `queues.get(qid)` for the routing check, where `qid` may be absent
(`json_msg.get('q')` is `None`): all dict keys are strings, so a
missing id never matches. -/
def lookup_queue_opt (qs : List (String × List ℕ)) (qid : Option String) :
    Option (List ℕ) :=
  match qid with
  | none => none
  | some k => lookup_queue qs k

/-- `JsonDispatcher.pull_msg` (lines 310-330).  Python truthiness and
`is None` checks become `if`s: the initial `self.queues[msg_id]` would
raise `KeyError` for an unregistered id (handlers only pass registered
ids; modelled as `none` with the state unchanged); `if q: return
q.pop(0)` pops the first queued record; an empty queue is served only
until the watermark passes `req_time + 1.`; end of stream sets
`is_eof`; a frame whose queue id is unknown or missing is dropped;
otherwise `params` is appended to the frame's queue and a status frame
carrying `toolhead.estimated_print_time` updates `last_read_time`. -/
def pull_msg (req_time : ℚ) (msg_id : String)
    (queues : List (String × List ℕ)) (last_read_time : ℚ)
    (stream : List JMsg) (is_eof : Bool) : Option ℕ × State :=
  if lookup_queue queues msg_id = none then
    (none, ⟨queues, last_read_time, stream, is_eof⟩)
  else
    let q := (lookup_queue queues msg_id).getD []
    if q ≠ [] then
      (q.head?, ⟨set_queue queues msg_id q.tail, last_read_time, stream, is_eof⟩)
    else if req_time + 1 < last_read_time then
      (none, ⟨queues, last_read_time, stream, is_eof⟩)
    else
      match stream with
      | [] => (none, ⟨queues, last_read_time, [], true⟩)
      | m :: ms =>
        if lookup_queue_opt queues m.q = none then
          pull_msg req_time msg_id queues last_read_time ms is_eof
        else
          let mq := (lookup_queue_opt queues m.q).getD []
          let queues2 := set_queue queues (m.q.getD "") (mq ++ [m.params])
          if m.q = some "status" ∧ m.ept ≠ none then
            pull_msg req_time msg_id queues2 (m.ept.getD 0) ms is_eof
          else
            pull_msg req_time msg_id queues2 last_read_time ms is_eof
  termination_by stream.length

end JsonDispatcher

/-! ## GenDerivative (`analyzers.py` lines 17-35) -/

namespace GenDerivative

/-- The list comprehension of `generate_data` (lines 32-33):
`deriv[i] = (data[i+1] - data[i]) * inv_seg_time` for
`i in range(len(data)-1)`. -/
def finite_diff (inv_seg_time : ℚ) : List ℚ → List ℚ
  | a :: b :: rest => (b - a) * inv_seg_time :: finite_diff inv_seg_time (b :: rest)
  | _ => []

/-- `GenDerivative.generate_data` (lines 29-34):
`inv_seg_time = 1. / segment_time`, then `[deriv[0]] + deriv`.  When
the source array has fewer than two elements, `deriv` is empty and
`deriv[0]` raises `IndexError`, modelled as `none`. -/
def generate_data (segment_time : ℚ) (data : List ℚ) : Option (List ℚ) :=
  let deriv := finite_diff (1 / segment_time) data
  match deriv with
  | [] => none
  | d :: _ => some (d :: deriv)

theorem finite_diff_length (inv : ℚ) (data : List ℚ) :
    (finite_diff inv data).length = data.length - 1 := by
  induction data with
  | nil => rfl
  | cons a tail ih =>
    cases tail with
    | nil => rfl
    | cons b rest =>
      rw [finite_diff]
      simpa using ih

theorem finite_diff_getD (inv : ℚ) (data : List ℚ) :
    ∀ i, i < (finite_diff inv data).length →
      (finite_diff inv data).getD i 0 =
        (data.getD (i + 1) 0 - data.getD i 0) * inv := by
  induction data with
  | nil => intro i h; simp [finite_diff] at h
  | cons a tail ih =>
    cases tail with
    | nil => intro i h; simp [finite_diff] at h
    | cons b rest =>
      intro i h
      cases i with
      | zero => rfl
      | succ j =>
        rw [finite_diff] at h ⊢
        simp only [List.getD_cons_succ]
        exact ih j (by simpa using h)

theorem finite_diff_replicate (inv c : ℚ) :
    ∀ n, finite_diff inv (List.replicate n c) = List.replicate (n - 1) 0 := by
  intro n
  induction n with
  | zero => rfl
  | succ m ih =>
    cases m with
    | zero => rfl
    | succ m2 =>
      rw [List.replicate_succ, List.replicate_succ, finite_diff,
        ← List.replicate_succ, ih]
      rw [show (c - c) * inv = 0 by ring]
      rw [show m2 + 1 - 1 = m2 from rfl, show m2 + 1 + 1 - 1 = m2 + 1 from rfl,
        List.replicate_succ]

end GenDerivative

/-! ## Dataset setup: `LogManager.setup_dataset` (`readlog.py` lines
371-383) and `AnalyzerManager.setup_dataset` (`analyzers.py` lines
125-142), with the analyzer constructors (`analyzers.py` lines 17-99)
inlined at their construction site. -/

namespace Setup

/-- Python `name.split(':')` / `params.split('-')`, implemented over the
character list so that it evaluates (Lean's `String.splitOn` does not
reduce in the kernel). -/
def split_on (s : String) (sep : Char) : List String :=
  (s.data.splitOn sep).map String.mk

/-- Python `name.strip()`: remove leading and trailing whitespace. -/
def strip (s : String) : String :=
  String.mk
    (((s.data.dropWhile Char.isWhitespace).reverse.dropWhile
      Char.isWhitespace).reverse)

/-- The four entries of the `LogHandlers` registry (`readlog.py` lines
104, 185, 226, 263). -/
inductive Kind
  | trapq | stepq | adxl345 | angle
  deriving DecidableEq, Repr

/-- `LogHandlers.get(parts[0])`. -/
def LogHandlers (s : String) : Option Kind :=
  if s = "trapq" then some .trapq
  else if s = "stepq" then some .stepq
  else if s = "adxl345" then some .adxl345
  else if s = "angle" then some .angle
  else none

/-- `cls.ParametersTotal`. -/
def ParametersTotal : Kind → ℕ
  | .trapq => 3
  | .stepq => 2
  | .adxl345 => 3
  | .angle => 2

/-- `cls.ParametersMsgId` (`2` for every handler class). -/
def ParametersMsgId : Kind → ℕ := fun _ => 2

/-- The setup-time semantic errors: one constructor per `raise error(...)`
site, carrying exactly the token interpolated into the Python format
string (`unknownAdxlSel` carries none, matching the constant message
`"Unknown adxl345 data selection"` at `readlog.py` line 201).
`outOfFuel` is a model artifact of the bounded recursion depth and
corresponds to no Python behavior. -/
inductive Err
  | unknownDataset (tok : String)
  | invalidParamCount (tok : String)
  | unknownTrapqSel (tok : String)
  | unknownAdxlSel
  | invalidDeviation (tok : String)
  | unsupportedKin (tok : String)
  | unknownStepper (tok : String)
  | outOfFuel
  deriving DecidableEq, Repr

/-- A raw dataset description as returned by `get_description`: the
identity of the backing SignalHandler instance (Python object identity,
modelled by a creation counter) plus the `label` and `units` strings of
the returned dict; the query closure is determined by these. -/
structure Desc where
  hid : ℕ
  label : String
  units : String
  deriving DecidableEq, Repr

/-- The `label` and `units` entries of the `ptypes` dictionary of
`HandleTrapQ.get_description` (lines 29-53): keys `velocity`, `accel`,
and `axis_{x,y,z}[_velocity|_accel]`. -/
def trapq_ptypes_label (p1 sel : String) : Option (String × String) :=
  if sel = "velocity" then some (p1 ++ " velocity", "Velocity\n(mm/s)")
  else if sel = "accel" then
    some (p1 ++ " acceleration", "Acceleration\n(mm/s^2)")
  else if sel = "axis_x" then
    some (p1 ++ " axis x position", "Position\n(mm)")
  else if sel = "axis_y" then
    some (p1 ++ " axis y position", "Position\n(mm)")
  else if sel = "axis_z" then
    some (p1 ++ " axis z position", "Position\n(mm)")
  else if sel = "axis_x_velocity" then
    some (p1 ++ " axis x velocity", "Velocity\n(mm/s)")
  else if sel = "axis_y_velocity" then
    some (p1 ++ " axis y velocity", "Velocity\n(mm/s)")
  else if sel = "axis_z_velocity" then
    some (p1 ++ " axis z velocity", "Velocity\n(mm/s)")
  else if sel = "axis_x_accel" then
    some (p1 ++ " axis x acceleration", "Acceleration\n(mm/s^2)")
  else if sel = "axis_y_accel" then
    some (p1 ++ " axis y acceleration", "Acceleration\n(mm/s^2)")
  else if sel = "axis_z_accel" then
    some (p1 ++ " axis z acceleration", "Acceleration\n(mm/s^2)")
  else none

/-- `ptypes.get(name_parts[2])` as a `Desc` bound to the handler
instance `hid` (the `func` closures all close over the same handler). -/
def trapq_ptypes (hid : ℕ) (p1 sel : String) : Option Desc :=
  (trapq_ptypes_label p1 sel).map (fun lu => ⟨hid, lu.1, lu.2⟩)

/-- `hdl.get_description(parts)` for each handler class.  For
`adxl345`, Python checks `aname not in 'xyz'`, a substring test: the
strings that pass are exactly the contiguous substrings of `"xyz"`
(including `""`); the error message carries no token. -/
def get_description : Kind → ℕ → List String → Except Err Desc
  | .trapq, hid, parts =>
    match trapq_ptypes hid (parts.getD 1 "") (parts.getD 2 "") with
    | some d => .ok d
    | none => .error (.unknownTrapqSel (parts.getD 2 ""))
  | .stepq, hid, parts =>
    .ok ⟨hid, parts.getD 1 "" ++ " position", "Position\n(mm)"⟩
  | .adxl345, hid, parts =>
    let aname := parts.getD 2 ""
    if aname ∈ ["", "x", "y", "z", "xy", "yz", "xyz"] then
      .ok ⟨hid, parts.getD 1 "" ++ " " ++ aname ++ " acceleration",
        "Acceleration\n(mm/s^2)"⟩
    else .error .unknownAdxlSel
  | .angle, hid, parts =>
    .ok ⟨hid, parts.getD 1 "" ++ " position", "Position\n(mm)"⟩

/-- `LogManager` side of the state: `active_handlers` (message id →
handler instance), the dispatcher's registered queue ids (initially
`["status"]`), and the creation counter providing handler identity. -/
structure LState where
  active : List (String × ℕ)
  queues : List String
  next_hid : ℕ
  deriving DecidableEq, Repr

/-- Association-list lookup, modelling Python `dict.get`. -/
def lookupA {α : Type} : List (String × α) → String → Option α
  | [], _ => none
  | (k, v) :: rest, key => if k = key then some v else lookupA rest key

/-- Association-list store, modelling Python `dict[key] = value`
(overwrite in place, append if new). -/
def upsert {α : Type} : List (String × α) → String → α → List (String × α)
  | [], key, v => [(key, v)]
  | (k, w) :: rest, key, v =>
    if k = key then (k, v) :: rest else (k, w) :: upsert rest key v

/-- `JsonDispatcher.add_handler` (lines 307-309): register the queue id
unless already present. -/
def add_handler (ls : LState) (msg_id : String) : LState :=
  if msg_id ∈ ls.queues then ls
  else { ls with queues := ls.queues ++ [msg_id] }

/-- `LogManager.setup_dataset` (lines 371-383): validate the dataset
kind and parameter count, then return the memoized handler for
`msg_id = ":".join(parts[:ParametersMsgId])` or create and register a
new one; either way the result is `hdl.get_description(parts)`.  Note
the handler is created and its queue registered before
`get_description` runs, as in the source. -/
def lm_setup_dataset (ls : LState) (name : String) : Except Err Desc × LState :=
  let parts := split_on name ':'
  match LogHandlers (parts.getD 0 "") with
  | none => (.error (.unknownDataset (parts.getD 0 "")), ls)
  | some kind =>
    if parts.length ≠ ParametersTotal kind then
      (.error (.invalidParamCount (parts.getD 0 "")), ls)
    else
      let msg_id := String.intercalate ":" (parts.take (ParametersMsgId kind))
      match lookupA ls.active msg_id with
      | some hid => (get_description kind hid parts, ls)
      | none =>
        let hid := ls.next_hid
        let ls2 : LState := ⟨upsert ls.active msg_id hid, ls.queues, hid + 1⟩
        (get_description kind hid parts, add_handler ls2 msg_id)

/-- A generated (analyzer) dataset handler, recording the analyzer kind
and its declared source dataset name(s): `GenDerivative`,
`GenKinematicPosition` (corexy sum, corexy difference, or passthrough)
and `GenDeviation`. -/
inductive GenHdl
  | derivative (src : String)
  | kinCorexyPlus (src1 src2 : String)
  | kinCorexyMinus (src1 src2 : String)
  | kinPass (src : String)
  | deviation (src1 src2 : String)
  deriving DecidableEq, Repr

/-- What `AnalyzerManager.setup_dataset` returns: a raw handler
description or a generated analyzer. -/
inductive Hdl
  | raw (d : Desc)
  | gen (g : GenHdl)
  deriving DecidableEq, Repr

/-- The three entries of the `AHandlers` registry (`analyzers.py` lines
35, 75, 99). -/
inductive AKind
  | derivative | kin | deviation
  deriving DecidableEq, Repr

/-- `AHandlers.get(nparts[0])`. -/
def AHandlers (s : String) : Option AKind :=
  if s = "derivative" then some .derivative
  else if s = "kin" then some .kin
  else if s = "deviation" then some .deviation
  else none

/-- `AnalyzerManager` side of the state: the `LogManager`/dispatcher
state, the kinematics string from the initial status snapshot
(`status['configfile']['settings']['printer']['kinematics']`), and the
three registries `raw_datasets`, `gen_datasets`, `datasets`. -/
structure AState where
  ls : LState
  kinematics : String
  raw_datasets : List (String × Desc)
  gen_datasets : List (String × GenHdl)
  datasets : List (String × List ℚ)
  deriving DecidableEq, Repr

/-- `AnalyzerManager.setup_dataset` (`analyzers.py` lines 125-142) with
the analyzer constructors (`GenDerivative.__init__`,
`GenKinematicPosition.__init__`, `GenDeviation.__init__`) inlined at
the `cls(self, ...)` call site, since they recursively call
`setup_dataset` on their source names.  The first argument bounds the
recursion depth (each recursive call strips at least the `kind:` prefix
or hits a raw name, so any fuel past the name length is enough);
Python has no such bound. -/
def setup_dataset : ℕ → AState → String → Except Err Hdl × AState
  | 0, s, _ => (.error .outOfFuel, s)
  | fuel + 1, s, name0 =>
    let name := strip name0
    match lookupA s.raw_datasets name with
    | some d => (.ok (.raw d), s)
    | none =>
    match lookupA s.gen_datasets name with
    | some g => (.ok (.gen g), s)
    | none =>
    let nparts := split_on name ':'
    if (LogHandlers (nparts.getD 0 "")).isSome then
      match lm_setup_dataset s.ls name with
      | (.error e, ls2) => (.error e, { s with ls := ls2 })
      | (.ok d, ls2) =>
        (.ok (.raw d),
          { s with
              ls := ls2
              raw_datasets := upsert s.raw_datasets name d
              datasets := upsert s.datasets name [] })
    else
      match AHandlers (nparts.getD 0 "") with
      | none => (.error (.unknownDataset name), s)
      | some ak =>
        let params := String.intercalate ":" (nparts.drop 1)
        match
          ((match ak with
           | .derivative =>
             match setup_dataset fuel s params with
             | (.error e, s2) => (.error e, s2)
             | (.ok _, s2) => (.ok (GenHdl.derivative params), s2)
           | .kin =>
             if ¬ (s.kinematics = "cartesian" ∨ s.kinematics = "corexy") then
               (.error (.unsupportedKin s.kinematics), s)
             else if ¬ (params = "stepper_x" ∨ params = "stepper_y" ∨
                 params = "stepper_z") then
               (.error (.unknownStepper params), s)
             else if s.kinematics = "corexy" ∧
                 (params = "stepper_x" ∨ params = "stepper_y") then
               match setup_dataset fuel s "trapq:toolhead:axis_x" with
               | (.error e, s2) => (.error e, s2)
               | (.ok _, s2) =>
                 match setup_dataset fuel s2 "trapq:toolhead:axis_y" with
                 | (.error e, s3) => (.error e, s3)
                 | (.ok _, s3) =>
                   if params = "stepper_x" then
                     (.ok (GenHdl.kinCorexyPlus "trapq:toolhead:axis_x"
                       "trapq:toolhead:axis_y"), s3)
                   else
                     (.ok (GenHdl.kinCorexyMinus "trapq:toolhead:axis_x"
                       "trapq:toolhead:axis_y"), s3)
             else
               let src := "trapq:toolhead:axis_" ++ params.drop 8
               match setup_dataset fuel s src with
               | (.error e, s2) => (.error e, s2)
               | (.ok _, s2) => (.ok (GenHdl.kinPass src), s2)
           | .deviation =>
             let dparts := split_on params '-'
             if dparts.length ≠ 2 then (.error (.invalidDeviation params), s)
             else
               match setup_dataset fuel s (dparts.getD 0 "") with
               | (.error e, s2) => (.error e, s2)
               | (.ok _, s2) =>
                 match setup_dataset fuel s2 (dparts.getD 1 "") with
                 | (.error e, s3) => (.error e, s3)
                 | (.ok _, s3) =>
                   (.ok (GenHdl.deviation (dparts.getD 0 "")
                     (dparts.getD 1 "")), s3)) :
            Except Err GenHdl × AState) with
        | (.error e, s2) => (.error e, s2)
        | (.ok g, s2) =>
          (.ok (.gen g),
            { s2 with
                gen_datasets := upsert s2.gen_datasets name g
                datasets := upsert s2.datasets name [] })

/-- The analyzer-constructor dispatch of `setup_dataset`
(`hdl = cls(self, ':'.join(nparts[1:]))`), as a named function: its
body is the same term that `setup_dataset` inlines, so the two are
interchangeable (`setup_dataset_gen_branch` below). -/
def mk_gen : ℕ → AKind → AState → String → Except Err GenHdl × AState
  | fuel, .derivative, s, params =>
    match setup_dataset fuel s params with
    | (.error e, s2) => (.error e, s2)
    | (.ok _, s2) => (.ok (GenHdl.derivative params), s2)
  | fuel, .kin, s, params =>
    if ¬ (s.kinematics = "cartesian" ∨ s.kinematics = "corexy") then
      (.error (.unsupportedKin s.kinematics), s)
    else if ¬ (params = "stepper_x" ∨ params = "stepper_y" ∨
        params = "stepper_z") then
      (.error (.unknownStepper params), s)
    else if s.kinematics = "corexy" ∧
        (params = "stepper_x" ∨ params = "stepper_y") then
      match setup_dataset fuel s "trapq:toolhead:axis_x" with
      | (.error e, s2) => (.error e, s2)
      | (.ok _, s2) =>
        match setup_dataset fuel s2 "trapq:toolhead:axis_y" with
        | (.error e, s3) => (.error e, s3)
        | (.ok _, s3) =>
          if params = "stepper_x" then
            (.ok (GenHdl.kinCorexyPlus "trapq:toolhead:axis_x"
              "trapq:toolhead:axis_y"), s3)
          else
            (.ok (GenHdl.kinCorexyMinus "trapq:toolhead:axis_x"
              "trapq:toolhead:axis_y"), s3)
    else
      let src := "trapq:toolhead:axis_" ++ params.drop 8
      match setup_dataset fuel s src with
      | (.error e, s2) => (.error e, s2)
      | (.ok _, s2) => (.ok (GenHdl.kinPass src), s2)
  | fuel, .deviation, s, params =>
    let dparts := split_on params '-'
    if dparts.length ≠ 2 then (.error (.invalidDeviation params), s)
    else
      match setup_dataset fuel s (dparts.getD 0 "") with
      | (.error e, s2) => (.error e, s2)
      | (.ok _, s2) =>
        match setup_dataset fuel s2 (dparts.getD 1 "") with
        | (.error e, s3) => (.error e, s3)
        | (.ok _, s3) =>
          (.ok (GenHdl.deviation (dparts.getD 0 "") (dparts.getD 1 "")), s3)

theorem setup_dataset_raw_memo (fuel : ℕ) (s : AState) (name0 : String)
    (d : Desc) (h : lookupA s.raw_datasets (strip name0) = some d) :
    setup_dataset (fuel + 1) s name0 = (.ok (.raw d), s) := by
  simp only [setup_dataset]
  rw [h]

theorem setup_dataset_gen_memo (fuel : ℕ) (s : AState) (name0 : String)
    (g : GenHdl) (h1 : lookupA s.raw_datasets (strip name0) = none)
    (h2 : lookupA s.gen_datasets (strip name0) = some g) :
    setup_dataset (fuel + 1) s name0 = (.ok (.gen g), s) := by
  simp only [setup_dataset]
  rw [h1, h2]

theorem setup_dataset_raw_branch (fuel : ℕ) (s : AState) (name0 : String)
    (h1 : lookupA s.raw_datasets (strip name0) = none)
    (h2 : lookupA s.gen_datasets (strip name0) = none)
    (h3 : (LogHandlers ((split_on (strip name0) ':').getD 0 "")).isSome = true) :
    setup_dataset (fuel + 1) s name0 =
      (match lm_setup_dataset s.ls (strip name0) with
       | (.error e, ls2) => (.error e, { s with ls := ls2 })
       | (.ok d, ls2) =>
         (.ok (.raw d),
           { s with
               ls := ls2
               raw_datasets := upsert s.raw_datasets (strip name0) d
               datasets := upsert s.datasets (strip name0) [] })) := by
  simp only [setup_dataset]
  rw [h1, h2, if_pos h3]

theorem setup_dataset_unknown (fuel : ℕ) (s : AState) (name0 : String)
    (h1 : lookupA s.raw_datasets (strip name0) = none)
    (h2 : lookupA s.gen_datasets (strip name0) = none)
    (h3 : (LogHandlers ((split_on (strip name0) ':').getD 0 "")).isSome = false)
    (h4 : AHandlers ((split_on (strip name0) ':').getD 0 "") = none) :
    setup_dataset (fuel + 1) s name0 =
      (.error (.unknownDataset (strip name0)), s) := by
  simp only [setup_dataset]
  rw [h1, h2, if_neg (by rw [h3]; exact Bool.false_ne_true), h4]

theorem setup_dataset_gen_branch (fuel : ℕ) (s : AState) (name0 : String)
    (ak : AKind) (h1 : lookupA s.raw_datasets (strip name0) = none)
    (h2 : lookupA s.gen_datasets (strip name0) = none)
    (h3 : (LogHandlers ((split_on (strip name0) ':').getD 0 "")).isSome = false)
    (h4 : AHandlers ((split_on (strip name0) ':').getD 0 "") = some ak) :
    setup_dataset (fuel + 1) s name0 =
      (match mk_gen fuel ak s
          (String.intercalate ":" ((split_on (strip name0) ':').drop 1)) with
       | (.error e, s2) => (.error e, s2)
       | (.ok g, s2) =>
         (.ok (.gen g),
           { s2 with
               gen_datasets := upsert s2.gen_datasets (strip name0) g
               datasets := upsert s2.datasets (strip name0) [] })) := by
  simp only [setup_dataset]
  rw [h1, h2, if_neg (by rw [h3]; exact Bool.false_ne_true), h4]
  cases ak <;> rfl

theorem lookupA_upsert_self {α : Type} (l : List (String × α)) (k : String)
    (v : α) : lookupA (upsert l k v) k = some v := by
  induction l with
  | nil => simp [upsert, lookupA]
  | cons p rest ih =>
    obtain ⟨a, b⟩ := p
    by_cases hak : a = k
    · subst hak
      simp [upsert, lookupA]
    · simp only [upsert, lookupA, if_neg hak]
      exact ih

theorem lookupA_upsert_ne {α : Type} (l : List (String × α)) (k k2 : String)
    (v : α) (h : k2 ≠ k) : lookupA (upsert l k v) k2 = lookupA l k2 := by
  induction l with
  | nil => simp [upsert, lookupA, Ne.symm h]
  | cons p rest ih =>
    obtain ⟨a, b⟩ := p
    by_cases hak : a = k
    · subst hak
      simp [upsert, lookupA, Ne.symm h]
    · simp only [upsert, lookupA, if_neg hak]
      by_cases hak2 : a = k2
      · simp [hak2]
      · simp only [if_neg hak2]
        exact ih

set_option maxHeartbeats 1000000 in
theorem get_description_hid (k : Kind) (hid : ℕ) (parts : List String)
    (d : Desc) (h : get_description k hid parts = .ok d) : d.hid = hid := by
  cases k with
  | trapq =>
    simp only [get_description] at h
    cases hp : trapq_ptypes hid (parts.getD 1 "") (parts.getD 2 "") with
    | none => rw [hp] at h; cases h
    | some d2 =>
      rw [hp] at h
      cases h
      rw [trapq_ptypes] at hp
      rcases Option.map_eq_some'.mp hp with ⟨lu, _, rfl⟩
      rfl
  | stepq =>
    simp only [get_description] at h
    cases h
    rfl
  | adxl345 =>
    simp only [get_description] at h
    split_ifs at h
    cases h
    rfl
  | angle =>
    simp only [get_description] at h
    cases h
    rfl

/-- Helper for `setup_raw_none`: the analyzer constructors only add
`raw_datasets` entries through their recursive `setup_dataset` calls. -/
theorem mk_gen_raw_none (fuel : ℕ)
    (IH : ∀ (s : AState) (n key : String),
      lookupA s.raw_datasets key = none →
      (LogHandlers ((split_on key ':').getD 0 "")).isSome = false →
      lookupA (setup_dataset fuel s n).2.raw_datasets key = none) :
    ∀ (ak : AKind) (s : AState) (params key : String),
      lookupA s.raw_datasets key = none →
      (LogHandlers ((split_on key ':').getD 0 "")).isSome = false →
      lookupA (mk_gen fuel ak s params).2.raw_datasets key = none := by
  intro ak s params key hk hkh
  cases ak with
  | derivative =>
    simp only [mk_gen]
    rcases hrec : setup_dataset fuel s params with ⟨r2, s2⟩
    have h2 : lookupA s2.raw_datasets key = none := by
      have := IH s params key hk hkh
      rw [hrec] at this
      exact this
    cases r2 <;> exact h2
  | kin =>
    simp only [mk_gen]
    by_cases hkin : ¬ (s.kinematics = "cartesian" ∨ s.kinematics = "corexy")
    · rw [if_pos hkin]; exact hk
    · rw [if_neg hkin]
      by_cases hst : ¬ (params = "stepper_x" ∨ params = "stepper_y" ∨
          params = "stepper_z")
      · rw [if_pos hst]; exact hk
      · rw [if_neg hst]
        by_cases hcx : s.kinematics = "corexy" ∧
            (params = "stepper_x" ∨ params = "stepper_y")
        · rw [if_pos hcx]
          rcases hrec : setup_dataset fuel s "trapq:toolhead:axis_x" with ⟨r2, s2⟩
          have h2 : lookupA s2.raw_datasets key = none := by
            have := IH s "trapq:toolhead:axis_x" key hk hkh
            rw [hrec] at this
            exact this
          cases r2 with
          | error e => exact h2
          | ok g =>
            show lookupA (match setup_dataset fuel s2 "trapq:toolhead:axis_y" with
              | (.error e, s3) => ((Except.error e : Except Err GenHdl), s3)
              | (.ok _, s3) =>
                if params = "stepper_x" then
                  (.ok (GenHdl.kinCorexyPlus "trapq:toolhead:axis_x"
                    "trapq:toolhead:axis_y"), s3)
                else
                  (.ok (GenHdl.kinCorexyMinus "trapq:toolhead:axis_x"
                    "trapq:toolhead:axis_y"), s3)).2.raw_datasets key = none
            rcases hrec2 : setup_dataset fuel s2 "trapq:toolhead:axis_y" with ⟨r3, s3⟩
            have h3 : lookupA s3.raw_datasets key = none := by
              have := IH s2 "trapq:toolhead:axis_y" key h2 hkh
              rw [hrec2] at this
              exact this
            cases r3 with
            | error e => exact h3
            | ok g2 =>
              show lookupA (if params = "stepper_x" then
                  ((Except.ok (GenHdl.kinCorexyPlus "trapq:toolhead:axis_x"
                    "trapq:toolhead:axis_y") : Except Err GenHdl), s3)
                else
                  (.ok (GenHdl.kinCorexyMinus "trapq:toolhead:axis_x"
                    "trapq:toolhead:axis_y"), s3)).2.raw_datasets key = none
              by_cases hpx : params = "stepper_x"
              · rw [if_pos hpx]; exact h3
              · rw [if_neg hpx]; exact h3
        · rw [if_neg hcx]
          rcases hrec : setup_dataset fuel s
            ("trapq:toolhead:axis_" ++ params.drop 8) with ⟨r2, s2⟩
          have h2 : lookupA s2.raw_datasets key = none := by
            have := IH s ("trapq:toolhead:axis_" ++ params.drop 8) key hk hkh
            rw [hrec] at this
            exact this
          cases r2 <;> exact h2
  | deviation =>
    simp only [mk_gen]
    by_cases hlen : (split_on params '-').length ≠ 2
    · rw [if_pos hlen]; exact hk
    · rw [if_neg hlen]
      rcases hrec : setup_dataset fuel s ((split_on params '-').getD 0 "")
        with ⟨r2, s2⟩
      have h2 : lookupA s2.raw_datasets key = none := by
        have := IH s ((split_on params '-').getD 0 "") key hk hkh
        rw [hrec] at this
        exact this
      cases r2 with
      | error e => exact h2
      | ok g =>
        show lookupA (match setup_dataset fuel s2 ((split_on params '-').getD 1 "") with
          | (.error e, s3) => ((Except.error e : Except Err GenHdl), s3)
          | (.ok _, s3) =>
            (.ok (GenHdl.deviation ((split_on params '-').getD 0 "")
              ((split_on params '-').getD 1 "")), s3)).2.raw_datasets key = none
        rcases hrec2 : setup_dataset fuel s2 ((split_on params '-').getD 1 "")
          with ⟨r3, s3⟩
        have h3 : lookupA s3.raw_datasets key = none := by
          have := IH s2 ((split_on params '-').getD 1 "") key h2 hkh
          rw [hrec2] at this
          exact this
        cases r3 <;> exact h3

/-- `setup_dataset` adds `raw_datasets` entries only under keys whose
first `:`-token is one of the four raw kinds; any other key absent
before a call is still absent after it. -/
theorem setup_raw_none (fuel : ℕ) :
    ∀ (s : AState) (n key : String),
      lookupA s.raw_datasets key = none →
      (LogHandlers ((split_on key ':').getD 0 "")).isSome = false →
      lookupA (setup_dataset fuel s n).2.raw_datasets key = none := by
  induction fuel with
  | zero => intro s n key hk _; exact hk
  | succ fuel ih =>
    intro s n key hk hkh
    cases hr : lookupA s.raw_datasets (strip n) with
    | some d => rw [setup_dataset_raw_memo fuel s n d hr]; exact hk
    | none =>
      cases hg : lookupA s.gen_datasets (strip n) with
      | some g => rw [setup_dataset_gen_memo fuel s n g hr hg]; exact hk
      | none =>
        cases hlh : (LogHandlers ((split_on (strip n) ':').getD 0 "")).isSome with
        | true =>
          rw [setup_dataset_raw_branch fuel s n hr hg hlh]
          rcases hlm : lm_setup_dataset s.ls (strip n) with ⟨r, ls2⟩
          cases r with
          | error e => exact hk
          | ok d =>
            have hne : key ≠ strip n := by
              intro hkey
              rw [hkey] at hkh
              rw [hkh] at hlh
              cases hlh
            show lookupA (upsert s.raw_datasets (strip n) d) key = none
            rw [lookupA_upsert_ne _ _ _ _ hne]
            exact hk
        | false =>
          cases hak : AHandlers ((split_on (strip n) ':').getD 0 "") with
          | none => rw [setup_dataset_unknown fuel s n hr hg hlh hak]; exact hk
          | some ak =>
            rw [setup_dataset_gen_branch fuel s n ak hr hg hlh hak]
            rcases hmk : mk_gen fuel ak s
              (String.intercalate ":" ((split_on (strip n) ':').drop 1))
              with ⟨r, s2⟩
            have h2 : lookupA s2.raw_datasets key = none := by
              have := mk_gen_raw_none fuel ih ak s
                (String.intercalate ":" ((split_on (strip n) ':').drop 1)) key hk hkh
              rw [hmk] at this
              exact this
            cases r with
            | error e => exact h2
            | ok g => exact h2

/-- `LogManager.setup_dataset` on a valid name whose message id is not
yet active: a fresh handler (identity `next_hid`) is created, stored
under the message id, and its queue registered. -/
theorem lm_setup_eq_fresh (ls : LState) (name msgId : String) (k1 : Kind)
    (hk : LogHandlers ((split_on name ':').getD 0 "") = some k1)
    (hlen : (split_on name ':').length = ParametersTotal k1)
    (hmsg : String.intercalate ":" ((split_on name ':').take (ParametersMsgId k1)) = msgId)
    (hact : lookupA ls.active msgId = none) :
    lm_setup_dataset ls name =
      (get_description k1 ls.next_hid (split_on name ':'),
        add_handler ⟨upsert ls.active msgId ls.next_hid, ls.queues,
          ls.next_hid + 1⟩ msgId) := by
  simp only [lm_setup_dataset, hk]
  rw [if_neg (by simp [hlen]), hmsg, hact]

/-- `LogManager.setup_dataset` on a valid name whose message id is
already active: the stored handler is reused, the state untouched. -/
theorem lm_setup_eq_memo (ls : LState) (name msgId : String) (k1 : Kind)
    (hid : ℕ)
    (hk : LogHandlers ((split_on name ':').getD 0 "") = some k1)
    (hlen : (split_on name ':').length = ParametersTotal k1)
    (hmsg : String.intercalate ":" ((split_on name ':').take (ParametersMsgId k1)) = msgId)
    (hact : lookupA ls.active msgId = some hid) :
    lm_setup_dataset ls name =
      (get_description k1 hid (split_on name ':'), ls) := by
  simp only [lm_setup_dataset, hk]
  rw [if_neg (by simp [hlen]), hmsg, hact]

/-- The only error `HandleTrapQ.get_description` raises carries the
offending selection suffix `parts[2]`. -/
theorem get_description_error_trapq (hid : ℕ) (parts : List String) (e : Err)
    (h : get_description .trapq hid parts = .error e) :
    e = .unknownTrapqSel (parts.getD 2 "") := by
  simp only [get_description] at h
  rcases htp : trapq_ptypes hid (parts.getD 1 "") (parts.getD 2 "") with _ | d
  · rw [htp] at h
    injection h with h2
    exact h2.symm
  · rw [htp] at h
    exact Except.noConfusion h

/-- The only error `HandleADXL345.get_description` raises is the
constant, tokenless `"Unknown adxl345 data selection"`. -/
theorem get_description_error_adxl (hid : ℕ) (parts : List String) (e : Err)
    (h : get_description .adxl345 hid parts = .error e) :
    e = .unknownAdxlSel := by
  simp only [get_description] at h
  by_cases hm : parts.getD 2 "" ∈ ["", "x", "y", "z", "xy", "yz", "xyz"]
  · rw [if_pos hm] at h
    exact Except.noConfusion h
  · rw [if_neg hm] at h
    injection h with h2
    exact h2.symm

end Setup

end Motan

open Motan Motan.Setup in
/-- C8: `setup_dataset` is idempotent — a second call with the same
name returns the same handler and leaves the state untouched (no
re-registration, no reset of the dataset's output array) — and two
dataset names sharing the same `(kind, message_key)` prefix are served
by one memoized SignalHandler instance whose queue is registered with
the dispatcher exactly once. -/
theorem setup_idempotent_memoized :
    (∀ (fuel1 fuel2 : ℕ) (s s' : AState) (name : String) (h : Hdl),
      setup_dataset (fuel1 + 1) s name = (.ok h, s') →
      setup_dataset (fuel2 + 1) s' name = (.ok h, s')) ∧
    (∀ (fuel1 fuel2 : ℕ) (s1 s2 s3 : AState) (n1 n2 msgId : String)
      (d1 d2 : Desc),
      lookupA s1.raw_datasets (strip n1) = none →
      lookupA s2.raw_datasets (strip n2) = none →
      String.intercalate ":" ((split_on (strip n1) ':').take 2) = msgId →
      String.intercalate ":" ((split_on (strip n2) ':').take 2) = msgId →
      lookupA s1.ls.active msgId = none →
      msgId ∉ s1.ls.queues →
      setup_dataset (fuel1 + 1) s1 n1 = (.ok (.raw d1), s2) →
      setup_dataset (fuel2 + 1) s2 n2 = (.ok (.raw d2), s3) →
      d1.hid = d2.hid ∧ s3.ls.queues.count msgId = 1) := by
  have raw_shape : ∀ (fuel : ℕ) (s s2 : AState) (n : String) (d : Desc),
      lookupA s.raw_datasets (strip n) = none →
      setup_dataset (fuel + 1) s n = (.ok (.raw d), s2) →
      ∃ k1 ls2,
        LogHandlers ((split_on (strip n) ':').getD 0 "") = some k1 ∧
        (split_on (strip n) ':').length = ParametersTotal k1 ∧
        lm_setup_dataset s.ls (strip n) = (.ok d, ls2) ∧
        s2 = { s with
                 ls := ls2
                 raw_datasets := upsert s.raw_datasets (strip n) d
                 datasets := upsert s.datasets (strip n) [] } := by
    intro fuel s s2 n d hraw hcall
    cases hg : lookupA s.gen_datasets (strip n) with
    | some g =>
      rw [setup_dataset_gen_memo fuel s n g hraw hg] at hcall
      have := congrArg Prod.fst hcall
      simp only at this
      injection this with this2
      cases this2
    | none =>
      cases hlh : (LogHandlers ((split_on (strip n) ':').getD 0 "")).isSome with
      | false =>
        cases hak : AHandlers ((split_on (strip n) ':').getD 0 "") with
        | none =>
          rw [setup_dataset_unknown fuel s n hraw hg hlh hak] at hcall
          exact Except.noConfusion (congrArg Prod.fst hcall)
        | some ak =>
          rw [setup_dataset_gen_branch fuel s n ak hraw hg hlh hak] at hcall
          rcases hmk : mk_gen fuel ak s
            (String.intercalate ":" ((split_on (strip n) ':').drop 1))
            with ⟨r, sg⟩
          rw [hmk] at hcall
          cases r with
          | error e => exact Except.noConfusion (congrArg Prod.fst hcall)
          | ok g =>
            have := congrArg Prod.fst hcall
            simp only at this
            injection this with this2
            cases this2
      | true =>
        obtain ⟨k1, hk1⟩ : ∃ k1,
            LogHandlers ((split_on (strip n) ':').getD 0 "") = some k1 := by
          cases hx : LogHandlers ((split_on (strip n) ':').getD 0 "") with
          | none => rw [hx] at hlh; cases hlh
          | some k1 => exact ⟨k1, rfl⟩
        rw [setup_dataset_raw_branch fuel s n hraw hg hlh] at hcall
        rcases hlm : lm_setup_dataset s.ls (strip n) with ⟨r, ls2⟩
        rw [hlm] at hcall
        cases r with
        | error e => exact Except.noConfusion (congrArg Prod.fst hcall)
        | ok d0 =>
          simp only [Prod.mk.injEq] at hcall
          obtain ⟨hA, hB⟩ := hcall
          injection hA with hA2
          injection hA2 with hA3
          subst hA3
          refine ⟨k1, ls2, hk1, ?_, rfl, hB.symm⟩
          by_contra hlen
          simp only [lm_setup_dataset, hk1] at hlm
          rw [if_pos hlen] at hlm
          have := congrArg Prod.fst hlm
          simp only at this
          cases this
  constructor
  · intro fuel1 fuel2 s s' name h hcall
    cases hr : lookupA s.raw_datasets (strip name) with
    | some d =>
      rw [setup_dataset_raw_memo fuel1 s name d hr] at hcall
      simp only [Prod.mk.injEq] at hcall
      obtain ⟨hA, hB⟩ := hcall
      injection hA with hA2
      subst hA2
      subst hB
      exact setup_dataset_raw_memo fuel2 s name d hr
    | none =>
      cases hg : lookupA s.gen_datasets (strip name) with
      | some g =>
        rw [setup_dataset_gen_memo fuel1 s name g hr hg] at hcall
        simp only [Prod.mk.injEq] at hcall
        obtain ⟨hA, hB⟩ := hcall
        injection hA with hA2
        subst hA2
        subst hB
        exact setup_dataset_gen_memo fuel2 s name g hr hg
      | none =>
        cases hlh : (LogHandlers ((split_on (strip name) ':').getD 0 "")).isSome with
        | true =>
          rw [setup_dataset_raw_branch fuel1 s name hr hg hlh] at hcall
          rcases hlm : lm_setup_dataset s.ls (strip name) with ⟨r, ls2⟩
          rw [hlm] at hcall
          cases r with
          | error e => exact Except.noConfusion (congrArg Prod.fst hcall)
          | ok d =>
            simp only [Prod.mk.injEq] at hcall
            obtain ⟨hA, hB⟩ := hcall
            injection hA with hA2
            subst hA2
            subst hB
            exact setup_dataset_raw_memo fuel2 _ name d (lookupA_upsert_self _ _ _)
        | false =>
          cases hak : AHandlers ((split_on (strip name) ':').getD 0 "") with
          | none =>
            rw [setup_dataset_unknown fuel1 s name hr hg hlh hak] at hcall
            exact Except.noConfusion (congrArg Prod.fst hcall)
          | some ak =>
            rw [setup_dataset_gen_branch fuel1 s name ak hr hg hlh hak] at hcall
            rcases hmk : mk_gen fuel1 ak s
              (String.intercalate ":" ((split_on (strip name) ':').drop 1))
              with ⟨r, s2⟩
            rw [hmk] at hcall
            cases r with
            | error e => exact Except.noConfusion (congrArg Prod.fst hcall)
            | ok g =>
              simp only [Prod.mk.injEq] at hcall
              obtain ⟨hA, hB⟩ := hcall
              injection hA with hA2
              subst hA2
              subst hB
              have hraw2 : lookupA s2.raw_datasets (strip name) = none := by
                have := mk_gen_raw_none fuel1 (setup_raw_none fuel1) ak s
                  (String.intercalate ":" ((split_on (strip name) ':').drop 1))
                  (strip name) hr hlh
                rw [hmk] at this
                exact this
              exact setup_dataset_gen_memo fuel2 _ name g hraw2
                (lookupA_upsert_self _ _ _)
  · intro fuel1 fuel2 s1 s2 s3 n1 n2 msgId d1 d2 hraw1 hraw2 hmsg1 hmsg2
      hact hq hcall1 hcall2
    obtain ⟨k1, ls2, hk1, hlen1, hlm1, hs2⟩ :=
      raw_shape fuel1 s1 s2 n1 d1 hraw1 hcall1
    obtain ⟨k2, ls3, hk2, hlen2, hlm2, hs3⟩ :=
      raw_shape fuel2 s2 s3 n2 d2 hraw2 hcall2
    rw [lm_setup_eq_fresh s1.ls (strip n1) msgId k1 hk1 hlen1 hmsg1 hact] at hlm1
    simp only [Prod.mk.injEq] at hlm1
    obtain ⟨hgd1, hls2⟩ := hlm1
    have hd1 : d1.hid = s1.ls.next_hid :=
      get_description_hid k1 s1.ls.next_hid (split_on (strip n1) ':') d1 hgd1
    have hact2 : lookupA s2.ls.active msgId = some s1.ls.next_hid := by
      rw [hs2]
      show lookupA ls2.active msgId = some s1.ls.next_hid
      rw [← hls2, add_handler]
      by_cases hmem : msgId ∈ (⟨upsert s1.ls.active msgId s1.ls.next_hid,
          s1.ls.queues, s1.ls.next_hid + 1⟩ : LState).queues
      · rw [if_pos hmem]
        exact lookupA_upsert_self _ _ _
      · rw [if_neg hmem]
        exact lookupA_upsert_self _ _ _
    rw [lm_setup_eq_memo s2.ls (strip n2) msgId k2 s1.ls.next_hid hk2 hlen2
      hmsg2 hact2] at hlm2
    simp only [Prod.mk.injEq] at hlm2
    obtain ⟨hgd2, hls3⟩ := hlm2
    have hd2 : d2.hid = s1.ls.next_hid :=
      get_description_hid k2 s1.ls.next_hid (split_on (strip n2) ':') d2 hgd2
    constructor
    · rw [hd1, hd2]
    · have hq3 : s3.ls.queues = s2.ls.queues := by rw [hs3, ← hls3]
      have hq2 : s2.ls.queues = s1.ls.queues ++ [msgId] := by
        rw [hs2]
        show ls2.queues = s1.ls.queues ++ [msgId]
        rw [← hls2, add_handler, if_neg hq]
      rw [hq3, hq2, List.count_append]
      rw [List.count_eq_zero.mpr hq]
      simp

open Motan Motan.Setup in
theorem setup_idempotent_memoized_witness :
    setup_dataset 1 ⟨⟨[], ["status"], 0⟩, "cartesian", [], [], []⟩
        "trapq:toolhead:velocity" =
      (.ok (.raw ⟨0, "toolhead velocity", "Velocity\n(mm/s)"⟩),
        ⟨⟨[("trapq:toolhead", 0)], ["status", "trapq:toolhead"], 1⟩,
          "cartesian",
          [("trapq:toolhead:velocity",
            ⟨0, "toolhead velocity", "Velocity\n(mm/s)"⟩)], [],
          [("trapq:toolhead:velocity", [])]⟩) ∧
    setup_dataset 1
        ⟨⟨[("trapq:toolhead", 0)], ["status", "trapq:toolhead"], 1⟩,
          "cartesian",
          [("trapq:toolhead:velocity",
            ⟨0, "toolhead velocity", "Velocity\n(mm/s)"⟩)], [],
          [("trapq:toolhead:velocity", [])]⟩
        "trapq:toolhead:accel" =
      (.ok (.raw ⟨0, "toolhead acceleration", "Acceleration\n(mm/s^2)"⟩),
        ⟨⟨[("trapq:toolhead", 0)], ["status", "trapq:toolhead"], 1⟩,
          "cartesian",
          [("trapq:toolhead:velocity",
            ⟨0, "toolhead velocity", "Velocity\n(mm/s)"⟩),
           ("trapq:toolhead:accel",
            ⟨0, "toolhead acceleration", "Acceleration\n(mm/s^2)"⟩)], [],
          [("trapq:toolhead:velocity", []),
           ("trapq:toolhead:accel", [])]⟩) ∧
    ((⟨0, "toolhead velocity", "Velocity\n(mm/s)"⟩ : Desc).hid =
        (⟨0, "toolhead acceleration", "Acceleration\n(mm/s^2)"⟩ : Desc).hid ∧
      (⟨⟨[("trapq:toolhead", 0)], ["status", "trapq:toolhead"], 1⟩,
          "cartesian",
          [("trapq:toolhead:velocity",
            ⟨0, "toolhead velocity", "Velocity\n(mm/s)"⟩),
           ("trapq:toolhead:accel",
            ⟨0, "toolhead acceleration", "Acceleration\n(mm/s^2)"⟩)], [],
          [("trapq:toolhead:velocity", []),
           ("trapq:toolhead:accel", [])]⟩ :
        AState).ls.queues.count "trapq:toolhead" = 1) :=
  ⟨rfl, rfl,
    setup_idempotent_memoized.2 0 0
      ⟨⟨[], ["status"], 0⟩, "cartesian", [], [], []⟩
      ⟨⟨[("trapq:toolhead", 0)], ["status", "trapq:toolhead"], 1⟩,
        "cartesian",
        [("trapq:toolhead:velocity",
          ⟨0, "toolhead velocity", "Velocity\n(mm/s)"⟩)], [],
        [("trapq:toolhead:velocity", [])]⟩
      ⟨⟨[("trapq:toolhead", 0)], ["status", "trapq:toolhead"], 1⟩,
        "cartesian",
        [("trapq:toolhead:velocity",
          ⟨0, "toolhead velocity", "Velocity\n(mm/s)"⟩),
         ("trapq:toolhead:accel",
          ⟨0, "toolhead acceleration", "Acceleration\n(mm/s^2)"⟩)], [],
        [("trapq:toolhead:velocity", []),
         ("trapq:toolhead:accel", [])]⟩
      "trapq:toolhead:velocity" "trapq:toolhead:accel" "trapq:toolhead"
      ⟨0, "toolhead velocity", "Velocity\n(mm/s)"⟩
      ⟨0, "toolhead acceleration", "Acceleration\n(mm/s^2)"⟩
      (by decide) (by decide) (by decide) (by decide) (by decide) (by decide)
      rfl rfl⟩

open Motan Motan.HandleTrapQ in
/-- C1: for every motion-queue state and query time, the axis position
query returns `start_pos[axis] + axes_r[axis] * (start_v + ½·accel·Δt)·Δt`
of the move selected by `_find_move`, with `Δt = req_time - print_time`
clamped to `[0, move_t]`; and for a fresh handler whose stream holds the
single move `(0, 1, 0, 2, (0,0,0), (1,0,0))`, the x-axis position at
`t = 0.5` is `0.25`. -/
theorem trapq_axis_position_formula :
    (∀ (s : State) (t : ℚ) (axis : Fin 3),
      pull_axis_position s t axis =
        (let m := (find_move t s.cur s.rest s.stream).1
         let dt := max 0 (min m.move_t (t - m.print_time))
         ax3 m.start_pos axis + ax3 m.axes_r axis *
           ((m.start_v + 1/2 * m.accel * dt) * dt))) ∧
    pull_axis_position (init [[⟨0, 1, 0, 2, (0, 0, 0), (1, 0, 0)⟩]]) (1/2) 0
      = 1/4 := by
  constructor
  · intro s t axis
    rfl
  · norm_num [pull_axis_position, find_move, scan_moves, find_move_stream, init,
      sentinel, ax3]

open Motan Motan.HandleTrapQ in
/-- C2: for the move selected by `_find_move` (with positive duration),
all four velocity/acceleration queries return exactly `0` whenever the
query time is strictly outside `[print_time, print_time + move_t]` —
covering both a query before any data and a query past the end of the
stream — while inside that interval the per-axis velocity equals
`(start_v + accel·(t - print_time)) · axes_r[axis]`. -/
theorem trapq_velocity_zero_outside (s : State) (t : ℚ) (axis : Fin 3)
    (_hdur : 0 < (find_move t s.cur s.rest s.stream).1.move_t) :
    ((t < (find_move t s.cur s.rest s.stream).1.print_time ∨
      (find_move t s.cur s.rest s.stream).1.print_time +
        (find_move t s.cur s.rest s.stream).1.move_t < t) →
      pull_axis_velocity s t axis = 0 ∧ pull_axis_accel s t axis = 0 ∧
      pull_velocity s t = 0 ∧ pull_accel s t = 0) ∧
    ((find_move t s.cur s.rest s.stream).1.print_time ≤ t →
      t ≤ (find_move t s.cur s.rest s.stream).1.print_time +
        (find_move t s.cur s.rest s.stream).1.move_t →
      pull_axis_velocity s t axis =
        ((find_move t s.cur s.rest s.stream).1.start_v +
          (find_move t s.cur s.rest s.stream).1.accel *
            (t - (find_move t s.cur s.rest s.stream).1.print_time)) *
          ax3 (find_move t s.cur s.rest s.stream).1.axes_r axis) := by
  constructor
  · intro hout
    have hfalse : (find_move t s.cur s.rest s.stream).2 = false := by
      rcases Bool.eq_false_or_eq_true (find_move t s.cur s.rest s.stream).2 with h | h
      · rcases (find_move_in_range t s.cur s.rest s.stream).mp h with ⟨h1, h2⟩
        rcases hout with hlt | hlt
        · exact absurd h1 (not_le.mpr hlt)
        · exact absurd h2 (not_le.mpr hlt)
      · exact h
    refine ⟨?_, ?_, ?_, ?_⟩ <;>
      simp [pull_axis_velocity, pull_axis_accel, pull_velocity, pull_accel, hfalse]
  · intro h1 h2
    have htrue : (find_move t s.cur s.rest s.stream).2 = true :=
      (find_move_in_range t s.cur s.rest s.stream).mpr ⟨h1, h2⟩
    simp [pull_axis_velocity, htrue]

open Motan Motan.HandleTrapQ in
/-- Witness for C2 at a concrete input: the fresh handler holding the
single move `(0, 1, 0, 2, (0,0,0), (1,0,0))`, queried at `t = 2` (past
the end of the stream) yields zero velocity and acceleration. -/
theorem trapq_velocity_zero_outside_witness :
    0 < (find_move 2 (init [[⟨0, 1, 0, 2, (0, 0, 0), (1, 0, 0)⟩]]).cur
          (init [[⟨0, 1, 0, 2, (0, 0, 0), (1, 0, 0)⟩]]).rest
          (init [[⟨0, 1, 0, 2, (0, 0, 0), (1, 0, 0)⟩]]).stream).1.move_t ∧
    pull_axis_velocity (init [[⟨0, 1, 0, 2, (0, 0, 0), (1, 0, 0)⟩]]) 2 0 = 0 := by
  have hmv : 0 < (find_move 2 (init [[⟨0, 1, 0, 2, (0, 0, 0), (1, 0, 0)⟩]]).cur
      (init [[⟨0, 1, 0, 2, (0, 0, 0), (1, 0, 0)⟩]]).rest
      (init [[⟨0, 1, 0, 2, (0, 0, 0), (1, 0, 0)⟩]]).stream).1.move_t := by
    norm_num [find_move, scan_moves, find_move_stream, init, sentinel]
  refine ⟨hmv, ?_⟩
  refine ((trapq_velocity_zero_outside
      (init [[⟨0, 1, 0, 2, (0, 0, 0), (1, 0, 0)⟩]]) 2 0 hmv).1 ?_).1
  right
  norm_num [find_move, scan_moves, find_move_stream, init, sentinel]

open Motan Motan.HandleStepQ in
/-- C3: for the step-queue scenario of steps of distance `0.01` every
`0.001` time units starting at position `0` (inter-step interval below
the `0.010` smoothing window), querying a fresh handler at the exact
midpoint between the times of steps `k` and `k+1` returns the linear
ramp value halfway between the two bracketing half-step positions, and
that value lies strictly between those two positions. -/
theorem stepq_midpoint_ramp (n k : ℕ) (hk : 1 ≤ k) (hkn : k + 1 ≤ n) :
    scenario_pull n ((k : ℚ) / 1000 + 1 / 2000) =
      ((scenario_event k).2.1 + (scenario_event (k + 1)).2.1) / 2 ∧
    (scenario_event k).2.1 < scenario_pull n ((k : ℚ) / 1000 + 1 / 2000) ∧
    scenario_pull n ((k : ℚ) / 1000 + 1 / 2000) < (scenario_event (k + 1)).2.1 := by
  have hkq : ((k : ℚ)) + 1 ≤ (n : ℚ) := by exact_mod_cast hkn
  have hval : scenario_pull n ((k : ℚ) / 1000 + 1 / 2000) = (k : ℚ) / 100 := by
    rw [scenario_pull, init_data]
    rw [pull_position.eq_def]
    simp only
    rw [if_pos (show ((0 : ℚ), (0 : ℚ), (0 : ℚ)).1 ≤ (k : ℚ) / 1000 + 1 / 2000 by
      have : (0 : ℚ) ≤ (k : ℚ) := Nat.cast_nonneg k
      simp only
      linarith)]
    rw [pull_position.eq_def]
    simp only
    rw [if_pos (show (k : ℚ) / 1000 + 1 / 2000 ≤ (n : ℚ) / 1000 by linarith)]
    rw [scenario_tail_zero n]
    exact scenario_tail_pull n k hk hkn k 0 (Nat.zero_le k) (by omega)
  rw [hval]
  obtain ⟨k0, rfl⟩ : ∃ k0, k = k0 + 1 := ⟨k - 1, by omega⟩
  simp only [scenario_event]
  push_cast
  refine ⟨by ring, by linarith, by linarith⟩

open Motan Motan.HandleStepQ in
/-- Witness for C3 at a concrete input: three steps, query at the
midpoint of the first and second step times (`t = 0.0015`), returning
`0.01` — halfway between the half-step positions `0.005` and `0.015`. -/
theorem stepq_midpoint_ramp_witness :
    1 ≤ 1 ∧ 1 + 1 ≤ 3 ∧
    (scenario_pull 3 ((1 : ℚ) / 1000 + 1 / 2000) =
        ((scenario_event 1).2.1 + (scenario_event 2).2.1) / 2 ∧
      (scenario_event 1).2.1 < scenario_pull 3 ((1 : ℚ) / 1000 + 1 / 2000) ∧
      scenario_pull 3 ((1 : ℚ) / 1000 + 1 / 2000) < (scenario_event 2).2.1) := by
  have h := stepq_midpoint_ramp 3 1 (by norm_num) (by norm_num)
  push_cast at h
  norm_num at h
  refine ⟨le_refl 1, by norm_num, ?_⟩
  norm_num
  exact h

open Motan Motan.HandleADXL345 in
/-- Counterexample to C4: with samples `(t=0, v=0)` and `(t=1, v=10)`,
the first query at `t = 0.5` interpolates to `5`, but after the stream
is exhausted the query at `t = 2` returns `0`, not the last sample
value `10` — the accelerometer handler does not do constant
extrapolation. -/
theorem adxl_no_constant_extrapolation :
    ((pull_accel 0 (1/2) (init [[(0, 0, 0, 0), (1, 10, 10, 10)]])).bind
        fun vs => (pull_accel 0 2 vs.2).map fun ws => (vs.1, ws.1)) =
      some ((5 : ℚ), (0 : ℚ)) ∧
    ((5 : ℚ), (0 : ℚ)) ≠ ((5 : ℚ), (10 : ℚ)) := by
  constructor
  · norm_num [pull_accel_load, pull_accel_consume, pull_accel_interp,
      pull_accel_eof, init, ax3]
  · intro h
    have := congrArg Prod.snd h
    norm_num at this

open Motan Motan.HandleADXL345 in
/-- C4 (amended): once the stream is exhausted, every accelerometer
query at a time past the last known sample returns `0` (not the last
sample value); in particular, with samples `(t=0, v=0)` and
`(t=1, v=10)`, the query at `t = 0.5` returns `5.0` and the query at
`t = 2` returns `0.0`. -/
theorem adxl_exhausted_returns_zero :
    (∀ (s : State) (axis : Fin 3) (t : ℚ),
      s.next_accel_time < t → s.cur_data = [] → s.stream = [] →
        pull_accel axis t s = some (0, s)) ∧
    ((pull_accel 0 (1/2) (init [[(0, 0, 0, 0), (1, 10, 10, 10)]])).bind
        fun vs => (pull_accel 0 2 vs.2).map fun ws => (vs.1, ws.1)) =
      some ((5 : ℚ), (0 : ℚ)) := by
  constructor
  · rintro ⟨lt, nt, la, na, cur, stream⟩ axis t h1 h2 h3
    simp only at h1 h2 h3
    subst h2
    subst h3
    rw [pull_accel.eq_def]
    simp only
    rw [if_neg (not_le.mpr h1)]
  · norm_num [pull_accel_load, pull_accel_consume, pull_accel_interp,
      pull_accel_eof, init, ax3]

open Motan Motan.HandleADXL345 in
/-- Witness for C4 (amended) at a concrete input: the state holding the
single consumed sample pair `(0, 0)` / `(1, 10)` with nothing left to
read, queried at `t = 2`, returns `0`. -/
theorem adxl_exhausted_returns_zero_witness :
    (State.mk 0 1 (0, 0, 0) (10, 10, 10) [] []).next_accel_time < 2 ∧
    (State.mk 0 1 (0, 0, 0) (10, 10, 10) [] []).cur_data = [] ∧
    (State.mk 0 1 (0, 0, 0) (10, 10, 10) [] []).stream = [] ∧
    pull_accel 0 2 (State.mk 0 1 (0, 0, 0) (10, 10, 10) [] []) =
      some (0, State.mk 0 1 (0, 0, 0) (10, 10, 10) [] []) :=
  ⟨by norm_num, rfl, rfl,
    adxl_exhausted_returns_zero.1 (State.mk 0 1 (0, 0, 0) (10, 10, 10) [] [])
      0 2 (by norm_num) rfl rfl⟩

open Motan Motan.HandleADXL345 Motan.HandleAngle in
/-- C10: the accelerometer and angle-sensor interpolation divides by
`next_time - last_time` with no zero guard: whenever the query time does
not exceed the buffered next-sample time while the two bracketing
sample times are equal — in particular on the very first query at a
time `≤ 0`, both times being initialized to `0` — the query raises a
division-by-zero error (modelled as `none`); when the two times are
distinct the interpolation branch returns a value. -/
theorem sample_interpolation_divzero :
    (∀ (s : HandleADXL345.State) (axis : Fin 3) (t : ℚ),
      t ≤ s.next_accel_time → s.last_accel_time = s.next_accel_time →
        pull_accel axis t s = none) ∧
    (∀ (s : HandleAngle.State) (t : ℚ),
      t ≤ s.next_angle_time → s.last_angle_time = s.next_angle_time →
        pull_position t s = none) ∧
    (∀ (s : HandleADXL345.State) (axis : Fin 3) (t : ℚ),
      t ≤ s.next_accel_time → s.last_accel_time ≠ s.next_accel_time →
        (pull_accel axis t s).isSome) ∧
    (∀ (s : HandleAngle.State) (t : ℚ),
      t ≤ s.next_angle_time → s.last_angle_time ≠ s.next_angle_time →
        (pull_position t s).isSome) := by
  refine ⟨?_, ?_, ?_, ?_⟩
  · rintro ⟨lt, nt, la, na, cur, stream⟩ axis t h1 h2
    simp only at h1 h2
    subst h2
    rw [pull_accel.eq_def]
    simp only
    rw [if_pos h1, if_pos (sub_self lt)]
  · rintro ⟨lt, nt, la, na, cur, stream⟩ t h1 h2
    simp only at h1 h2
    subst h2
    rw [pull_position.eq_def]
    simp only
    rw [if_pos h1, if_pos (sub_self lt)]
  · rintro ⟨lt, nt, la, na, cur, stream⟩ axis t h1 h2
    simp only at h1 h2
    rw [pull_accel.eq_def]
    simp only
    rw [if_pos h1, if_neg (sub_ne_zero_of_ne (Ne.symm h2))]
    rfl
  · rintro ⟨lt, nt, la, na, cur, stream⟩ t h1 h2
    simp only at h1 h2
    rw [pull_position.eq_def]
    simp only
    rw [if_pos h1, if_neg (sub_ne_zero_of_ne (Ne.symm h2))]
    rfl

open Motan Motan.HandleADXL345 Motan.HandleAngle in
/-- Witness for C10 at a concrete input: the very first query on a
fresh handler, at time `0 ≤ 0`, hits the unguarded division and fails
for both the accelerometer and the angle sensor. -/
theorem sample_interpolation_divzero_witness :
    (0 : ℚ) ≤ (HandleADXL345.init []).next_accel_time ∧
    (HandleADXL345.init []).last_accel_time = (HandleADXL345.init []).next_accel_time ∧
    pull_accel 0 0 (HandleADXL345.init []) = none ∧
    pull_position 0 (HandleAngle.init []) = none :=
  ⟨le_refl 0, rfl,
    sample_interpolation_divzero.1 (HandleADXL345.init []) 0 0 (le_refl 0) rfl,
    sample_interpolation_divzero.2.1 (HandleAngle.init []) 0 (le_refl 0) rfl⟩

open Motan Motan.JsonLogReader in
/-- C5 (code bug): on a malformed frame, `pull_msg` enters its `except`
handler, which calls `logging.exception` — but `readlog.py` never
imports `logging`, so the handler raises `NameError` and the run
aborts instead of skipping the frame; the spec-intended behavior
(`pull_msg_spec`) would skip the bad frame and return the next good
one. -/
theorem logreader_malformed_frame_fatal :
    pull_msg [Frame.bad, Frame.good 7] = Except.error () ∧
    pull_msg_spec [Frame.bad, Frame.good 7] = (some 7, []) :=
  ⟨rfl, rfl⟩

open Motan Motan.GenDerivative in
/-- Counterexample to C6: for a source array with fewer than two
elements (here the constant singleton `[5]` and the empty array) the
derivative analyzer raises `IndexError` on `deriv[0]` (modelled as
`none`) instead of returning an array of the same length as the
source. -/
theorem derivative_short_source :
    generate_data 1 [(5 : ℚ)] = none ∧ generate_data 1 ([] : List ℚ) = none :=
  ⟨rfl, rfl⟩

open Motan Motan.GenDerivative in
/-- C6 (amended): for every source array with at least two elements,
the derivative analyzer returns an array of the same length whose
element `i` (for `i ≥ 1`) equals `(source[i] - source[i-1]) /
segment_time` and whose first element duplicates the second;
consequently the derivative of every constant source array with at
least two elements is all-zero. -/
theorem derivative_length_and_values :
    (∀ (seg : ℚ) (data : List ℚ), 2 ≤ data.length →
      ∃ l, generate_data seg data = some l ∧
        l.length = data.length ∧
        (∀ i, 1 ≤ i → i < l.length →
          l.getD i 0 = (data.getD i 0 - data.getD (i - 1) 0) / seg) ∧
        l.getD 0 0 = l.getD 1 0) ∧
    (∀ (seg c : ℚ) (n : ℕ), 2 ≤ n →
      generate_data seg (List.replicate n c) = some (List.replicate n 0)) := by
  constructor
  · intro seg data h2
    obtain ⟨d, ds, hd⟩ : ∃ d ds, finite_diff (1 / seg) data = d :: ds := by
      have hl := finite_diff_length (1 / seg) data
      cases hfd : finite_diff (1 / seg) data with
      | nil => rw [hfd] at hl; simp at hl; omega
      | cons d ds => exact ⟨d, ds, rfl⟩
    have hlen : ds.length + 1 = data.length - 1 := by
      have hl := finite_diff_length (1 / seg) data
      rw [hd] at hl
      simpa using hl
    refine ⟨d :: d :: ds, ?_, ?_, ?_, ?_⟩
    · rw [generate_data]
      simp only [hd]
    · simp only [List.length_cons]
      omega
    · intro i h1 hi
      obtain ⟨j, rfl⟩ : ∃ j, i = j + 1 := ⟨i - 1, by omega⟩
      have hstep : (d :: d :: ds).getD (j + 1) 0 = (d :: ds).getD j 0 := by
        simp
      rw [hstep, ← hd]
      rw [finite_diff_getD (1 / seg) data j ?_]
      · rw [show j + 1 - 1 = j from rfl, mul_one_div]
      · rw [hd]
        simp only [List.length_cons] at hi ⊢
        omega
    · simp
  · intro seg c n hn
    rw [generate_data]
    simp only [finite_diff_replicate]
    obtain ⟨m, rfl⟩ : ∃ m, n = m + 2 := ⟨n - 2, by omega⟩
    rw [show m + 2 - 1 = m + 1 from rfl, List.replicate_succ]
    rw [show List.replicate (m + 2) (0 : ℚ) = 0 :: 0 :: List.replicate m 0 by
      rw [List.replicate_succ, List.replicate_succ]]

open Motan Motan.GenDerivative in
/-- Witness for C6 (amended) at a concrete input: the constant
three-element array `[3, 3, 3]` with `segment_time = 2` yields a
three-element result, and as a replicate it maps to the all-zero
array. -/
theorem derivative_length_and_values_witness :
    2 ≤ ([(3 : ℚ), 3, 3] : List ℚ).length ∧
    (∃ l, generate_data 2 [(3 : ℚ), 3, 3] = some l ∧
      l.length = ([(3 : ℚ), 3, 3] : List ℚ).length ∧
      (∀ i, 1 ≤ i → i < l.length →
        l.getD i 0 = (([(3 : ℚ), 3, 3] : List ℚ).getD i 0 -
          ([(3 : ℚ), 3, 3] : List ℚ).getD (i - 1) 0) / 2) ∧
      l.getD 0 0 = l.getD 1 0) ∧
    2 ≤ 3 ∧
    generate_data 2 (List.replicate 3 (3 : ℚ)) = some (List.replicate 3 0) :=
  ⟨by norm_num, derivative_length_and_values.1 2 [3, 3, 3] (by norm_num),
    by norm_num, derivative_length_and_values.2 2 3 3 (by norm_num)⟩

open Motan Motan.JsonDispatcher in
/-- C7: `pull_msg(req_time, msg_id)` on an empty registered queue (a)
returns no record and reads no further frame as soon as the watermark
exceeds `req_time + 1`; (b) routes a status frame carrying
`toolhead.estimated_print_time` into the status queue and sets the
watermark to that time before continuing; (c) drops a frame whose
queue id is not registered (or absent) without delivering it or
touching any queue. -/
theorem dispatcher_cutoff_watermark_drop :
    (∀ (queues : List (String × List ℕ)) (lrt t : ℚ) (stream : List JMsg)
      (eof : Bool) (msg_id : String),
      lookup_queue queues msg_id = some [] →
      t + 1 < lrt →
      pull_msg t msg_id queues lrt stream eof =
        (none, ⟨queues, lrt, stream, eof⟩)) ∧
    (∀ (queues : List (String × List ℕ)) (lrt t : ℚ) (m : JMsg)
      (ms : List JMsg) (eof : Bool) (msg_id : String) (pt : ℚ) (l : List ℕ),
      lookup_queue queues msg_id = some [] →
      ¬ (t + 1 < lrt) →
      m.q = some "status" → m.ept = some pt →
      lookup_queue queues "status" = some l →
      pull_msg t msg_id queues lrt (m :: ms) eof =
        pull_msg t msg_id (set_queue queues "status" (l ++ [m.params])) pt ms eof) ∧
    (∀ (queues : List (String × List ℕ)) (lrt t : ℚ) (m : JMsg)
      (ms : List JMsg) (eof : Bool) (msg_id : String),
      lookup_queue queues msg_id = some [] →
      ¬ (t + 1 < lrt) →
      lookup_queue_opt queues m.q = none →
      pull_msg t msg_id queues lrt (m :: ms) eof =
        pull_msg t msg_id queues lrt ms eof) := by
  refine ⟨?_, ?_, ?_⟩
  · intro queues lrt t stream eof msg_id hl hcut
    rw [pull_msg.eq_def, hl]
    simp [hcut]
  · intro queues lrt t m ms eof msg_id pt l hl hcut hq hept hsl
    rw [pull_msg.eq_def, hl]
    simp [hcut, hq, hept, hsl, lookup_queue_opt]
  · intro queues lrt t m ms eof msg_id hl hcut hdrop
    rw [pull_msg.eq_def, hl]
    simp [hcut, hdrop]

open Motan Motan.JsonDispatcher in
/-- Witness for C7 at concrete inputs: (a) with the watermark at `5`, a
query for the registered empty queue `x` at `t = 1` returns nothing and
leaves the state untouched; (b) a status frame with estimated print
time `7` is routed into the status queue and the watermark becomes `7`;
(c) a frame for the unregistered queue `y` is dropped. -/
theorem dispatcher_cutoff_watermark_drop_witness :
    (lookup_queue [("x", [])] "x" = some [] ∧
      (1 : ℚ) + 1 < 5 ∧
      pull_msg 1 "x" [("x", [])] 5 [⟨some "x", 3, none⟩] false =
        (none, ⟨[("x", [])], 5, [⟨some "x", 3, none⟩], false⟩)) ∧
    (pull_msg 0 "x" [("status", []), ("x", [])] 0
        [⟨some "status", 9, some 7⟩] false =
      pull_msg 0 "x" (set_queue [("status", []), ("x", [])] "status" ([] ++ [9]))
        7 [] false) ∧
    (pull_msg 0 "x" [("x", [])] 0 [⟨some "y", 3, none⟩] false =
      pull_msg 0 "x" [("x", [])] 0 [] false) := by
  refine ⟨⟨by decide, by norm_num, ?_⟩, ?_, ?_⟩
  · exact dispatcher_cutoff_watermark_drop.1 [("x", [])] 5 1 [⟨some "x", 3, none⟩]
      false "x" (by decide) (by norm_num)
  · exact dispatcher_cutoff_watermark_drop.2.1 [("status", []), ("x", [])] 0 0
      ⟨some "status", 9, some 7⟩ [] false "x" 7 [] (by decide) (by norm_num)
      rfl rfl (by decide)
  · exact dispatcher_cutoff_watermark_drop.2.2 [("x", [])] 0 0 ⟨some "y", 3, none⟩
      [] false "x" (by decide) (by norm_num) (by decide)

open Motan Motan.Setup in
/-- C9 counterexample: the adxl345 data-selection error does not carry
the offending token.  The two distinct invalid selections `"w"` and
`"v"` produce the identical error value through the full setup
pipeline (`readlog.py` line 201 raises the constant message
`"Unknown adxl345 data selection"` with no format argument), so the
error message cannot name the token that failed to validate. -/
theorem adxl_error_message_tokenless :
    (setup_dataset 1 ⟨⟨[], ["status"], 0⟩, "cartesian", [], [], []⟩
        "adxl345:a:w").1 =
      (setup_dataset 1 ⟨⟨[], ["status"], 0⟩, "cartesian", [], [], []⟩
        "adxl345:a:v").1 ∧
    (setup_dataset 1 ⟨⟨[], ["status"], 0⟩, "cartesian", [], [], []⟩
        "adxl345:a:w").1 = .error .unknownAdxlSel :=
  ⟨rfl, rfl⟩

open Motan Motan.Setup in
/-- C9 (amended): every setup-time semantic error of the raw-dataset
path is raised at setup time by the pure validation functions and
carries the offending token — except the adxl345 data-selection error,
which is the constant tokenless message.  Concretely: a trapq
selection error carries the selection suffix `parts[2]`; an adxl345
selection failure yields only the constant `unknownAdxlSel`; stepq and
angle never fail; and `LogManager.setup_dataset` returns only the
unknown-kind error carrying `parts[0]`, the parameter-count error
carrying `parts[0]`, the trapq selection error carrying `parts[2]`, or
the tokenless adxl345 error. -/
theorem setup_errors_carry_token :
    (∀ (hid : ℕ) (parts : List String) (e : Err),
      get_description .trapq hid parts = .error e →
      e = .unknownTrapqSel (parts.getD 2 "")) ∧
    (∀ (hid : ℕ) (parts : List String) (e : Err),
      get_description .adxl345 hid parts = .error e →
      e = .unknownAdxlSel) ∧
    (∀ (hid : ℕ) (parts : List String),
      (∃ d, get_description .stepq hid parts = .ok d) ∧
      (∃ d, get_description .angle hid parts = .ok d)) ∧
    (∀ (ls : LState) (name : String) (e : Err) (ls2 : LState),
      lm_setup_dataset ls name = (.error e, ls2) →
      e = .unknownDataset ((split_on name ':').getD 0 "") ∨
      e = .invalidParamCount ((split_on name ':').getD 0 "") ∨
      e = .unknownTrapqSel ((split_on name ':').getD 2 "") ∨
      e = .unknownAdxlSel) := by
  refine ⟨get_description_error_trapq, get_description_error_adxl,
    fun hid parts => ⟨⟨_, rfl⟩, ⟨_, rfl⟩⟩, ?_⟩
  intro ls name e ls2 h
  simp only [lm_setup_dataset] at h
  cases hk : LogHandlers ((split_on name ':').getD 0 "") with
  | none =>
    rw [hk] at h
    simp only [Prod.mk.injEq] at h
    obtain ⟨h1, _⟩ := h
    injection h1 with h2
    exact Or.inl h2.symm
  | some k =>
    simp only [hk] at h
    by_cases hlen : (split_on name ':').length ≠ ParametersTotal k
    · rw [if_pos hlen] at h
      simp only [Prod.mk.injEq] at h
      obtain ⟨h1, _⟩ := h
      injection h1 with h2
      exact Or.inr (Or.inl h2.symm)
    · rw [if_neg hlen] at h
      cases hact : lookupA ls.active
          (String.intercalate ":"
            ((split_on name ':').take (ParametersMsgId k))) with
      | some hid =>
        rw [hact] at h
        have h1 := congrArg Prod.fst h
        simp only at h1
        cases k with
        | trapq =>
          exact Or.inr (Or.inr (Or.inl
            (get_description_error_trapq _ _ _ h1)))
        | stepq =>
          simp only [get_description] at h1
          exact Except.noConfusion h1
        | adxl345 =>
          exact Or.inr (Or.inr (Or.inr
            (get_description_error_adxl _ _ _ h1)))
        | angle =>
          simp only [get_description] at h1
          exact Except.noConfusion h1
      | none =>
        rw [hact] at h
        have h1 := congrArg Prod.fst h
        simp only at h1
        cases k with
        | trapq =>
          exact Or.inr (Or.inr (Or.inl
            (get_description_error_trapq _ _ _ h1)))
        | stepq =>
          simp only [get_description] at h1
          exact Except.noConfusion h1
        | adxl345 =>
          exact Or.inr (Or.inr (Or.inr
            (get_description_error_adxl _ _ _ h1)))
        | angle =>
          simp only [get_description] at h1
          exact Except.noConfusion h1

open Motan Motan.Setup in
theorem setup_errors_carry_token_witness :
    (Err.unknownTrapqSel "bogus" =
      .unknownTrapqSel ((["trapq", "toolhead", "bogus"] : List String).getD 2 "")) ∧
    (Err.unknownAdxlSel = .unknownAdxlSel) ∧
    (Err.unknownDataset "bogus" =
        .unknownDataset ((split_on "bogus" ':').getD 0 "") ∨
      Err.unknownDataset "bogus" =
        .invalidParamCount ((split_on "bogus" ':').getD 0 "") ∨
      Err.unknownDataset "bogus" =
        .unknownTrapqSel ((split_on "bogus" ':').getD 2 "") ∨
      Err.unknownDataset "bogus" = .unknownAdxlSel) :=
  ⟨setup_errors_carry_token.1 0 ["trapq", "toolhead", "bogus"]
      (.unknownTrapqSel "bogus") rfl,
    setup_errors_carry_token.2.1 0 ["adxl345", "a", "w"] .unknownAdxlSel rfl,
    setup_errors_carry_token.2.2.2 ⟨[], ["status"], 0⟩ "bogus"
      (.unknownDataset "bogus") ⟨[], ["status"], 0⟩ rfl⟩
